import Mathlib

/-!
Verification of the xtream-proxy access-control core against its
natural-language specification.

The development shallowly embeds the JavaScript source:

* `server.js` quota engine: `checkPlaylistRequestLimit`,
  `updateUserPlaylistHistory` (sliding-window playlist quota, disable /
  cooldown cycle, permanent promotion);
* `server.js` token codec: `encryptChannelUrl`, `decryptChannelToken`,
  `validateTokenPayload` plus the usage-count bump in
  `handleEncryptedRedirect`;
* `src/managers/UserManager.js` concurrency limiter:
  `checkStreamConcurrency`, `removeStreamConnection`,
  `cleanupUserInactiveStreams`.

Conventions of the embedding:

* JavaScript numbers holding millisecond timestamps / counters are `Nat`.
  Where the source can only ever see non-negative differences the
  truncating `Nat` subtraction agrees with JS subtraction; theorems carry
  the corresponding time-ordering hypotheses.
* `x || default` on config numbers is `jsOr` (JS treats `0` as falsy).
* JS truthiness tests on possibly-missing ids / strings are `jsTruthyNat`
  / `jsTruthyStr`.
* JS objects returned by the handlers become structures whose absent
  fields are `none`.
* The AES-256-CBC cipher and `JSON.stringify`/`JSON.parse` are external
  library calls, not repository code; they are abstracted as parameters
  (`MsgCipher`, serializer/deserializer functions) whose round-trip
  behaviour is a hypothesis of the theorems that need it.  Concrete
  executable instances are provided to evaluate witnesses and
  counterexamples.  The base64 / hex / URL-safe text codecs and the
  `iv:ciphertext` framing are modelled concretely, following Node's
  `Buffer` semantics (in particular its lenient base64 decoding, which
  discards the trailing bits of a final partial group).
-/

/-- JS `v || d` for numeric config values: `0`, `null`, `undefined` fall
back to the default. -/
def jsOr (v : Option Nat) (d : Nat) : Nat :=
  match v with
  | none => d
  | some n => if n = 0 then d else n

/-- JS truthiness of a possibly-missing number (`0` is falsy). -/
def jsTruthyNat (v : Option Nat) : Bool :=
  match v with
  | none => false
  | some n => n != 0

/-- JS truthiness of a possibly-missing string (`""` is falsy). -/
def jsTruthyStr (v : Option String) : Bool :=
  match v with
  | none => false
  | some s => s != ""

/-- Model of the `config.playlist` subsection of `config.json` (fields
read through `config.playlist?.X || default`). -/
structure PlaylistConfig where
  refreshLimitPeriod : Option Nat := none
  maxRefreshesInPeriod : Option Nat := none
  maxSimultaneousPlaylists : Option Nat := none
  temporaryLinkExpiry : Option Nat := none
  permanentLinkThreshold : Option Nat := none
  permanentLinkExpiry : Option Nat := none
deriving Repr, DecidableEq

/-- An entry of `userLimit.activePlaylists` (`server.js` line 750). -/
structure ActivePlaylist where
  id : String
  createdAt : Nat
  isPermanent : Bool
  clientIP : String
deriving Repr, DecidableEq

/-- A `playlistRequestLimits` record (`server.js` lines 383-389). -/
structure UserLimit where
  requests : List Nat
  disabled : Bool
  disabledAt : Option Nat
  createdAt : Nat
  activePlaylists : List ActivePlaylist
deriving Repr, DecidableEq

/-- A `userPlaylistHistory` record (`server.js` lines 493-499). -/
structure UserHistory where
  totalRequests : Nat
  firstRequestTime : Option Nat
  lastRequestTime : Option Nat
  qualifiedForPermanent : Bool
  qualificationTime : Option Nat
deriving Repr, DecidableEq

/-- Fresh history record created by `getUserPlaylistHistory`. -/
def defaultHistory : UserHistory :=
  { totalRequests := 0, firstRequestTime := none, lastRequestTime := none,
    qualifiedForPermanent := false, qualificationTime := none }

/-- Fresh limit record created by `checkPlaylistRequestLimit`
(`server.js` lines 383-389). -/
def newUserLimit (now : Nat) : UserLimit :=
  { requests := [], disabled := false, disabledAt := none,
    createdAt := now, activePlaylists := [] }

/-- The per-user slice of quota state touched by one request: the user's
`playlistRequestLimits` entry and `userPlaylistHistory` entry (absent
entries are `none`). -/
structure QuotaState where
  userLimit : Option UserLimit
  history : Option UserHistory
deriving Repr, DecidableEq

/-- The result object of `checkPlaylistRequestLimit`; JS object fields
that a given return path does not set are `none`. -/
structure LimitResult where
  allowed : Bool
  reason : Option String := none
  remainingTime : Option Nat := none
  activeCount : Option Nat := none
  maxCount : Option Nat := none
  requestsUsed : Option Nat := none
  requestsRemaining : Option Nat := none
  isPermanentUser : Option Bool := none
  activePlaylistCount : Option Nat := none
  maxSimultaneous : Option Nat := none
deriving Repr, DecidableEq

/-- The slice of a `this.users[username]` record the quota engine reads. -/
structure UserRec where
  telegramUserId : Option Nat
deriving Repr, DecidableEq

/-- Embedding of `updateUserPlaylistHistory` (`server.js` lines 506-537): bump the
counters, stamp the first request, and promote the user to permanent when
the first request is at least `refreshLimitPeriod` ago and the updated
total stays under `permanentLinkThreshold`. -/
def updateUserPlaylistHistory (cfg : PlaylistConfig) (now : Nat)
    (h : UserHistory) : UserHistory :=
  let total := h.totalRequests + 1
  let first := if jsTruthyNat h.firstRequestTime then h.firstRequestTime.getD 0 else now
  let limitPeriod := jsOr cfg.refreshLimitPeriod 18000000
  let threshold := jsOr cfg.permanentLinkThreshold 5
  let timeSinceFirst := now - first
  let qualifies : Bool :=
    !h.qualifiedForPermanent && decide (limitPeriod ≤ timeSinceFirst)
      && decide (total < threshold)
  { totalRequests := total,
    firstRequestTime := some first,
    lastRequestTime := some now,
    qualifiedForPermanent := h.qualifiedForPermanent || qualifies,
    qualificationTime := if qualifies then some now else h.qualificationTime }

/-- The active-playlist pruning of `checkPlaylistRequestLimit` (lines
400-407): entries of permanent users never expire, others expire after
`temporaryLinkExpiry`. -/
def prunePlaylists (cfg : PlaylistConfig) (h : UserHistory) (now : Nat)
    (ps : List ActivePlaylist) : List ActivePlaylist :=
  ps.filter (fun p =>
    h.qualifiedForPermanent || decide (now - p.createdAt < jsOr cfg.temporaryLinkExpiry 7200000))

/-- Embedding of `checkPlaylistRequestLimit` (`server.js` lines 358-487).  `user` is
`this.users[username]`, `isInGroup` is the answer of the external
`checkUserInTelegramGroup` collaborator, `now` is `Date.now()`.  Returns
the JS result object together with the mutated per-user state. -/
def checkPlaylistRequestLimit (cfg : PlaylistConfig) (user : Option UserRec)
    (isInGroup : Bool) (now : Nat) (st : QuotaState) :
    LimitResult × QuotaState :=
  match user with
  | none => ({ allowed := true }, st)
  | some u =>
    if ¬ jsTruthyNat u.telegramUserId then ({ allowed := true }, st)
    else if ¬ isInGroup then
      ({ allowed := false, reason := some "user_not_in_group" }, st)
    else
      let limitPeriod := jsOr cfg.refreshLimitPeriod 18000000
      let maxRequests := jsOr cfg.maxRefreshesInPeriod 5
      let maxSimultaneous := jsOr cfg.maxSimultaneousPlaylists 3
      let ul0 := st.userLimit.getD (newUserLimit now)
      let history := st.history.getD defaultHistory
      let ul1 := { ul0 with activePlaylists := prunePlaylists cfg history now ul0.activePlaylists }
      if maxSimultaneous ≤ ul1.activePlaylists.length then
        ({ allowed := false, reason := some "too_many_active_playlists",
           activeCount := some ul1.activePlaylists.length,
           maxCount := some maxSimultaneous },
         { userLimit := some ul1, history := some history })
      else
        let afterDisable : UserLimit × Option LimitResult :=
          if ul1.disabled then
            let timeSinceDisabled := now - ul1.disabledAt.getD 0
            if limitPeriod < timeSinceDisabled then
              ({ ul1 with requests := [], disabled := false, disabledAt := none }, none)
            else
              let rem := (limitPeriod - timeSinceDisabled + 59999) / 60000
              (ul1, some { allowed := false, reason := some "account_disabled", remainingTime := some rem })
          else (ul1, none)
        match afterDisable with
        | (ul2, some r) => (r, { userLimit := some ul2, history := some history })
        | (ul2, none) =>
          let kept := ul2.requests.filter (fun t => decide (now - t < limitPeriod))
          let ul3 := { ul2 with requests := kept }
          if !history.qualifiedForPermanent && maxRequests ≤ ul3.requests.length then
            ({ allowed := false, reason := some "limit_exceeded" },
             { userLimit := some { ul3 with disabled := true, disabledAt := some now },
               history := some history })
          else
            let ul4 := if history.qualifiedForPermanent then ul3
                       else { ul3 with requests := ul3.requests ++ [now] }
            let history2 := updateUserPlaylistHistory cfg now history
            ({ allowed := true,
               requestsUsed := some (if history2.qualifiedForPermanent then 0
                                     else ul4.requests.length),
               requestsRemaining := some (maxRequests - ul4.requests.length),
               isPermanentUser := some history2.qualifiedForPermanent,
               activePlaylistCount := some ul4.activePlaylists.length,
               maxSimultaneous := some maxSimultaneous },
             { userLimit := some ul4, history := some history2 })

/-- Iterate `checkPlaylistRequestLimit` over a list of request times. -/
def runRequests (cfg : PlaylistConfig) (user : Option UserRec)
    (isInGroup : Bool) : List Nat → QuotaState → List LimitResult × QuotaState
  | [], st => ([], st)
  | t :: ts, st =>
    let p := checkPlaylistRequestLimit cfg user isInGroup t st
    let q := runRequests cfg user isInGroup ts p.2
    (p.1 :: q.1, q.2)

/-! ### Generic association-map helpers (JS `Map` semantics) -/

/-- JS `Map.prototype.get` over an insertion-ordered association list. -/
def mapGet {α β : Type} [DecidableEq α] (m : List (α × β)) (k : α) : Option β :=
  (m.find? (fun e => decide (e.1 = k))).map (·.2)

/-- JS `Map.prototype.set`: overwrite in place, else append. -/
def mapSet {α β : Type} [DecidableEq α] (m : List (α × β)) (k : α) (v : β) :
    List (α × β) :=
  match m with
  | [] => [(k, v)]
  | e :: rest => if e.1 = k then (k, v) :: rest else e :: mapSet rest k v

/-- JS `Map.prototype.delete`. -/
def mapDelete {α β : Type} [DecidableEq α] (m : List (α × β)) (k : α) :
    List (α × β) :=
  m.filter (fun e => decide (e.1 ≠ k))

/-! ### Text codecs used by the token pipeline

`Buffer.toString('hex')`, `Buffer.from(_, 'hex')`, `Buffer.toString('base64')`
and `Buffer.from(_, 'base64')` as Node implements them.  Strings are
`List Char`, byte strings are `List Nat` (each element `< 256`). -/

/-- One lowercase hex digit (`Buffer.toString('hex')` is lowercase). -/
def hexDigit (n : Nat) : Char :=
  if n < 10 then Char.ofNat (48 + n) else Char.ofNat (87 + n)

/-- Value of a hex digit, accepting both cases as Node does. -/
def hexVal (c : Char) : Option Nat :=
  if '0' ≤ c ∧ c ≤ '9' then some (c.toNat - 48)
  else if 'a' ≤ c ∧ c ≤ 'f' then some (c.toNat - 87)
  else if 'A' ≤ c ∧ c ≤ 'F' then some (c.toNat - 55)
  else none

/-- Model of `Buffer.toString('hex')`. -/
def hexEncode : List Nat → List Char
  | [] => []
  | b :: bs => hexDigit (b / 16) :: hexDigit (b % 16) :: hexEncode bs

/-- Model of `Buffer.from(_, 'hex')`, strict variant: fails on a non-hex character
(Node instead truncates there; every place the theorems below exercise
this function receives well-formed hex, where the two agree). -/
def hexDecode : List Char → Option (List Nat)
  | [] => some []
  | c1 :: c2 :: rest =>
    match hexVal c1, hexVal c2, hexDecode rest with
    | some h, some l, some bs => some ((h * 16 + l) :: bs)
    | _, _, _ => none
  | _ => none

/-- Standard base64 alphabet, by 6-bit value. -/
def b64Char (v : Nat) : Char :=
  if v < 26 then Char.ofNat (65 + v)
  else if v < 52 then Char.ofNat (97 + (v - 26))
  else if v < 62 then Char.ofNat (48 + (v - 52))
  else if v = 62 then '+'
  else '/'

/-- Value of a base64 alphabet character. -/
def b64Val (c : Char) : Option Nat :=
  if 'A' ≤ c ∧ c ≤ 'Z' then some (c.toNat - 65)
  else if 'a' ≤ c ∧ c ≤ 'z' then some (c.toNat - 97 + 26)
  else if '0' ≤ c ∧ c ≤ '9' then some (c.toNat - 48 + 52)
  else if c = '+' then some 62
  else if c = '/' then some 63
  else none

/-- Model of `Buffer.toString('base64')`: canonical padded encoding. -/
def b64encode : List Nat → List Char
  | [] => []
  | [b1] => [b64Char (b1 / 4), b64Char (b1 % 4 * 16), '=', '=']
  | [b1, b2] =>
    [b64Char (b1 / 4), b64Char (b1 % 4 * 16 + b2 / 16), b64Char (b2 % 16 * 4), '=']
  | b1 :: b2 :: b3 :: rest =>
    b64Char (b1 / 4) :: b64Char (b1 % 4 * 16 + b2 / 16) ::
      b64Char (b2 % 16 * 4 + b3 / 64) :: b64Char (b3 % 64) :: b64encode rest

/-- Model of `Buffer.from(_, 'base64')` on a padded string: Node decodes a
final `xy==` group to one byte and a final `xyz=` group to two bytes,
silently discarding the trailing bits of the last character (it does not
insist they are zero). -/
def b64decode : List Char → Option (List Nat)
  | [] => some []
  | c1 :: c2 :: c3 :: c4 :: rest =>
    match b64Val c1, b64Val c2 with
    | some v1, some v2 =>
      if c3 = '=' then
        if c4 = '=' ∧ rest = [] then some [v1 * 4 + v2 / 16] else none
      else
        match b64Val c3 with
        | some v3 =>
          if c4 = '=' then
            if rest = [] then some [v1 * 4 + v2 / 16, v2 % 16 * 16 + v3 / 4]
            else none
          else
            match b64Val c4, b64decode rest with
            | some v4, some bs =>
              some ((v1 * 4 + v2 / 16) :: (v2 % 16 * 16 + v3 / 4) :: (v3 % 4 * 64 + v4) :: bs)
            | _, _ => none
        | none => none
    | _, _ => none
  | _ => none

/-- Per-character action of the replaces turning base64 URL-safe:
plus becomes dash, slash becomes underscore. -/
def urlSafeChar (c : Char) : Char :=
  if c = '+' then '-' else if c = '/' then '_' else c

/-- Per-character action of the inverse replaces: dash becomes plus,
underscore becomes slash. -/
def unUrlSafeChar (c : Char) : Char :=
  if c = '-' then '+' else if c = '_' then '/' else c

/-- Model of the re-padding loop `while (base64Token.length % 4)
base64Token += '='`. -/
def padTo4 (l : List Char) : List Char :=
  l ++ List.replicate ((4 - l.length % 4) % 4) '='

/-- Model of `combined.split(':')`. -/
def splitColon : List Char → List (List Char)
  | [] => [[]]
  | c :: cs =>
    if c = ':' then [] :: splitColon cs
    else
      match splitColon cs with
      | [] => [[c]]
      | h :: t => (c :: h) :: t

/-- UTF-8 bytes of an ASCII string (all pipeline strings are ASCII). -/
def charsToBytes (l : List Char) : List Nat := l.map Char.toNat

/-- Model of `Buffer.toString('utf8')` restricted to ASCII bytes. -/
def bytesToChars (l : List Nat) : List Char := l.map Char.ofNat

/-! ### Token codec (`server.js`) -/

/-- The token payload built by `encryptChannelUrl` (lines 807-817); it is
never stored, only (de)serialized through the token itself. -/
structure TokenPayload where
  url : String
  user : String
  channel : String
  ip : String
  issued : Nat
  expires : Nat
  playlistId : Option String
  isPermanent : Bool
  nonce : String
deriving Repr, DecidableEq

/-- The `code` field of a failed verification. -/
inductive ErrCode where
  | INVALID_FORMAT
  | EXPIRED
  | USER_MISMATCH
  | IP_MISMATCH
  | USAGE_LIMIT
  | PLAYLIST_NOT_FOUND
deriving Repr, DecidableEq

/-- Result of `validateTokenPayload` / `decryptChannelToken`. -/
inductive ValidateResult where
  | failure (code : ErrCode)
  | ok (url : String) (channel : String) (tokenKey : List Char)
      (remainingTime : Option Nat) (isPermanent : Bool)
      (playlistId : Option String)
deriving Repr, DecidableEq

/-- Model of the `config.security` subsection (IP binding defaults to off in
`ConfigManager.js` and the documented `config.json`). -/
structure SecurityConfig where
  enableIPBinding : Bool := false
  maxTokenUsage : Option Nat := none
deriving Repr, DecidableEq

/-- Model of `redirectTokens.get(tokenKey) || 0`. -/
def lookupCount (rt : List (List Char × Nat)) (k : List Char) : Nat :=
  (mapGet rt k).getD 0

/-- Embedding of `validateTokenPayload` (`server.js` lines 842-894).
`persistentPlaylists` is the set of ids present in the persistent
playlist store; `redirectTokens` is the usage-counter map. -/
def validateTokenPayload (seccfg : SecurityConfig)
    (persistentPlaylists : List String) (rt : List (List Char × Nat))
    (now : Nat) (p : TokenPayload) (username clientIP : String)
    (encryptedToken : List Char) : ValidateResult :=
  let permWithId := p.isPermanent && jsTruthyStr p.playlistId
  let stage1 : Option ErrCode :=
    if permWithId then
      if p.playlistId.getD "" ∈ persistentPlaylists then none
      else some .PLAYLIST_NOT_FOUND
    else if p.expires < now then some .EXPIRED
    else none
  match stage1 with
  | some c => .failure c
  | none =>
    if p.user ≠ username then .failure .USER_MISMATCH
    else if seccfg.enableIPBinding ∧ p.ip ≠ clientIP then .failure .IP_MISMATCH
    else
      let tokenKey := username.data ++ '_' :: encryptedToken
      let base := jsOr seccfg.maxTokenUsage 3
      let usageLimit := if p.isPermanent then base * 10 else base
      let usageCount := lookupCount rt tokenKey
      if usageLimit ≤ usageCount then .failure .USAGE_LIMIT
      else
        .ok p.url p.channel tokenKey
          (if p.isPermanent then none else some ((p.expires - now) / 60000))
          p.isPermanent p.playlistId

/-- The external AES-256-CBC cipher (`crypto.createCipheriv` /
`createDecipheriv`), abstracted at message level: `enc iv plaintext`
yields the ciphertext, `dec iv ciphertext` recovers the plaintext or
fails (`none` models the padding / final-block exception). -/
structure MsgCipher where
  enc : List Nat → List Nat → List Nat
  dec : List Nat → List Nat → Option (List Nat)

/-- The payload object literal of `encryptChannelUrl` (lines 802-817);
`now = Date.now()`, `nonce = crypto.randomBytes(8).toString('hex')`. -/
def mkTokenPayload (cfg : PlaylistConfig) (now : Nat)
    (originalUrl username channelId clientIP : String) (expiryMinutes : Nat)
    (playlistId : Option String) (isPermanent : Bool) (nonce : String) :
    TokenPayload :=
  let expiryTime :=
    if isPermanent then now + jsOr cfg.permanentLinkExpiry 31536000000
    else now + expiryMinutes * 60000
  { url := originalUrl, user := username, channel := channelId,
    ip := clientIP, issued := now, expires := expiryTime,
    playlistId := playlistId, isPermanent := isPermanent, nonce := nonce }

/-- Embedding of `encryptChannelUrl` (`server.js` lines 800-839): serialize, encrypt
under a fresh `iv`, frame as `hex(iv) ++ ":" ++ hex(ciphertext)`, base64
the frame, make it URL-safe and strip the `'='` padding.  The JSON
serializer `ser` (a `JSON.stringify` call in the source) is a parameter. -/
def encryptChannelUrl (mc : MsgCipher) (ser : TokenPayload → List Nat)
    (cfg : PlaylistConfig) (iv : List Nat) (now : Nat)
    (originalUrl username channelId clientIP : String) (expiryMinutes : Nat)
    (playlistId : Option String) (isPermanent : Bool) (nonce : String) :
    List Char :=
  let payload := mkTokenPayload cfg now originalUrl username channelId
    clientIP expiryMinutes playlistId isPermanent nonce
  let encrypted := mc.enc iv (ser payload)
  let combined := hexEncode iv ++ ':' :: hexEncode encrypted
  let base64Combined := b64encode (charsToBytes combined)
  (base64Combined.map urlSafeChar).filter (fun c => c ≠ '=')

/-- Embedding of `decryptChannelToken` (`server.js` lines 1402-1437): undo the URL-safe
mapping, re-pad, base64-decode, split on `':'`, hex-decode both halves,
decrypt, deserialize (`des`, a `JSON.parse` call in the source), then
validate.  Any failure along the way is the caught exception path
returning `INVALID_FORMAT`; `createDecipheriv` also throws when the IV is
not 16 bytes. -/
def decryptChannelToken (mc : MsgCipher) (des : List Nat → Option TokenPayload)
    (seccfg : SecurityConfig) (persistentPlaylists : List String)
    (rt : List (List Char × Nat)) (now : Nat) (encryptedToken : List Char)
    (username clientIP : String) : ValidateResult :=
  let base64Token := padTo4 (encryptedToken.map unUrlSafeChar)
  match b64decode base64Token with
  | none => .failure .INVALID_FORMAT
  | some bytes =>
    match splitColon (bytesToChars bytes) with
    | [ivHex, encData] =>
      match hexDecode ivHex, hexDecode encData with
      | some iv, some ct =>
        if iv.length = 16 then
          match mc.dec iv ct with
          | none => .failure .INVALID_FORMAT
          | some pt =>
            match des pt with
            | none => .failure .INVALID_FORMAT
            | some payload =>
              validateTokenPayload seccfg persistentPlaylists rt now payload
                username clientIP encryptedToken
        else .failure .INVALID_FORMAT
      | _, _ => .failure .INVALID_FORMAT
    | _ => .failure .INVALID_FORMAT

/-- The success path of `handleEncryptedRedirect` (`server.js` lines
1191-1193): bump the usage counter of the redeemed token; failures leave
the counter map untouched. -/
def handleRedirectUsage (rt : List (List Char × Nat)) (r : ValidateResult) :
    List (List Char × Nat) :=
  match r with
  | .failure _ => rt
  | .ok _ _ tokenKey _ _ _ => mapSet rt tokenKey (lookupCount rt tokenKey + 1)

/-! ### Concurrency limiter (`src/managers/UserManager.js`) -/

/-- An `activeStreams` record (`UserManager.js` lines 313-319). -/
structure StreamRec where
  username : String
  channelId : String
  clientIP : String
  startTime : Nat
  lastActivity : Nat
deriving Repr, DecidableEq

/-- The `UserManager` state the limiter touches: the insertion-ordered
`activeStreams` map (stream id to record) and the backward-compatible
`streamConnections` map (user:channel key to the set of IPs, kept as an
insertion-ordered duplicate-free list). -/
structure UMState where
  activeStreams : List (String × StreamRec)
  streamConnections : List (String × List String)
deriving Repr, DecidableEq

/-- Embedding of `cleanupUserInactiveStreams` (`UserManager.js` lines
334-350): drop this user's records idle for more than five minutes. -/
def cleanupUserInactiveStreams (username : String) (now : Nat)
    (streams : List (String × StreamRec)) : List (String × StreamRec) :=
  streams.filter (fun e =>
    !(decide (e.2.username = username) && decide (300000 < now - e.2.lastActivity)))

/-- The first loop of `checkStreamConcurrency`: find the first record
matching `(username, channelId, clientIP)` exactly, refresh its
`lastActivity` and return its stream id. -/
def touchFirst (username channelId clientIP : String) (now : Nat) :
    List (String × StreamRec) → Option String × List (String × StreamRec)
  | [] => (none, [])
  | e :: rest =>
    if e.2.username = username ∧ e.2.channelId = channelId ∧ e.2.clientIP = clientIP then
      (some e.1, (e.1, { e.2 with lastActivity := now }) :: rest)
    else
      let r := touchFirst username channelId clientIP now rest
      (r.1, e :: r.2)

/-- The `userDevices` set of `checkStreamConcurrency`: distinct client
IPs across this user's live records. -/
def userDevices (username : String)
    (streams : List (String × StreamRec)) : List String :=
  ((streams.filter (fun e => decide (e.2.username = username))).map
    (fun e => e.2.clientIP)).dedup

/-- Embedding of `checkStreamConcurrency` (`UserManager.js` lines
277-331).  `freshId` stands for the `uuidv4()` call.  Returns the session
id (`none` is the JS `false` rejection) and the updated state. -/
def checkStreamConcurrency (now : Nat) (freshId : String)
    (username channelId clientIP : String) (st : UMState) :
    Option String × UMState :=
  let streams := cleanupUserInactiveStreams username now st.activeStreams
  let t := touchFirst username channelId clientIP now streams
  match t.1 with
  | some sid => (some sid, { st with activeStreams := t.2 })
  | none =>
    let devices := userDevices username streams
    if 3 ≤ devices.length ∧ clientIP ∉ devices then
      (none, { st with activeStreams := streams })
    else
      let rec2 : StreamRec :=
        { username := username, channelId := channelId, clientIP := clientIP,
          startTime := now, lastActivity := now }
      let streamKey := username ++ ":" ++ channelId
      let conns := (mapGet st.streamConnections streamKey).getD []
      let conns2 := if clientIP ∈ conns then conns else conns ++ [clientIP]
      (some freshId,
       { activeStreams := streams ++ [(freshId, rec2)],
         streamConnections := mapSet st.streamConnections streamKey conns2 })

/-- The `break`-ing loop of `removeStreamConnection`: delete the first
record matching `(username, channelId, clientIP)`. -/
def removeFirstStream (username channelId clientIP : String) :
    List (String × StreamRec) → List (String × StreamRec)
  | [] => []
  | e :: rest =>
    if e.2.username = username ∧ e.2.channelId = channelId ∧ e.2.clientIP = clientIP then
      rest
    else e :: removeFirstStream username channelId clientIP rest

/-- Embedding of `removeStreamConnection` (`UserManager.js` lines
353-382): drop the IP from the `streamConnections` set (deleting an
emptied key) and delete the first matching `activeStreams` record. -/
def removeStreamConnection (username channelId clientIP : String)
    (st : UMState) : UMState :=
  let streamKey := username ++ ":" ++ channelId
  let sc :=
    match mapGet st.streamConnections streamKey with
    | none => st.streamConnections
    | some conns =>
      let conns2 := conns.filter (fun ip => decide (ip ≠ clientIP))
      if conns2.isEmpty then mapDelete st.streamConnections streamKey
      else mapSet st.streamConnections streamKey conns2
  { activeStreams := removeFirstStream username channelId clientIP st.activeStreams,
    streamConnections := sc }

/-! ### Concrete instances of the abstract cipher and serializer

The theorems about the token codec are stated for every cipher /
serializer satisfying the pointwise round-trip laws the library
guarantees.  The instances below are executable stand-ins used to
evaluate witnesses and counterexamples: a cipher with the exact
block/padding geometry of AES-256-CBC (PKCS#7 padding to 16-byte blocks,
ciphertext length a positive multiple of 16) and the exact JSON encoding
`JSON.stringify` produces for the payload object. -/

/-- PKCS#7 padding to 16-byte blocks, as AES-CBC applies before
encryption. -/
def pkcs7pad (pt : List Nat) : List Nat :=
  let padLen := 16 - pt.length % 16
  pt ++ List.replicate padLen padLen

/-- PKCS#7 unpadding; fails (the `decipher.final` exception) on an
invalid pad. -/
def pkcs7unpad (pt : List Nat) : Option (List Nat) :=
  match pt.getLast? with
  | none => none
  | some padLen =>
    if 1 ≤ padLen ∧ padLen ≤ 16 ∧ padLen ≤ pt.length ∧
        (pt.drop (pt.length - padLen)).all (fun b => b = padLen) then
      some (pt.take (pt.length - padLen))
    else none

/-- Keystream of length `n` obtained by cycling the IV. -/
def xorKeystream (iv : List Nat) (n : Nat) : List Nat :=
  (List.range n).map (fun i => iv.getD (i % iv.length) 0)

/-- Executable stand-in cipher with AES-256-CBC geometry: pad, then XOR
with an IV-derived keystream; decryption rejects ciphertexts whose
length is not a positive multiple of the block size, then unpads. -/
def xorCipher : MsgCipher where
  enc iv pt :=
    let p := pkcs7pad pt
    p.zipWith Nat.xor (xorKeystream iv p.length)
  dec iv ct :=
    if ct.length % 16 = 0 ∧ 0 < ct.length then
      pkcs7unpad (ct.zipWith Nat.xor (xorKeystream iv ct.length))
    else none

/-- JSON string literal for a string containing no quote, backslash or
control character (the only payload strings the witnesses use). -/
def jsonString (s : String) : String := "\"" ++ s ++ "\""

/-- The exact text `JSON.stringify` produces for the payload object of
`encryptChannelUrl` (insertion order of the object literal). -/
def jsonOfPayload (p : TokenPayload) : String :=
  "\x7b\"url\":" ++ jsonString p.url ++
  ",\"user\":" ++ jsonString p.user ++
  ",\"channel\":" ++ jsonString p.channel ++
  ",\"ip\":" ++ jsonString p.ip ++
  ",\"issued\":" ++ toString p.issued ++
  ",\"expires\":" ++ toString p.expires ++
  ",\"playlistId\":" ++ (match p.playlistId with
    | none => "null"
    | some s => jsonString s) ++
  ",\"isPermanent\":" ++ (if p.isPermanent then "true" else "false") ++
  ",\"nonce\":" ++ jsonString p.nonce ++ "\x7d"

/-- Serializer instance: UTF-8 bytes of the JSON text. -/
def jsonSer (p : TokenPayload) : List Nat := charsToBytes (jsonOfPayload p).data

/-- Strip an expected literal off the front of the input. -/
def expectChars : List Char → List Char → Option (List Char)
  | [], l => some l
  | p :: ps, c :: cs => if c = p then expectChars ps cs else none
  | _ :: _, [] => none

/-- Read a quoteless string literal body up to the closing quote. -/
def takeStringBody : List Char → List Char → Option (String × List Char)
  | [], _ => none
  | c :: cs, acc =>
    if c = '"' then some (String.mk acc.reverse, cs) else takeStringBody cs (c :: acc)

/-- Parse a JSON string literal (no escapes). -/
def parseStringLit : List Char → Option (String × List Char)
  | '"' :: rest => takeStringBody rest []
  | _ => none

/-- Parse a decimal natural number literal. -/
def parseNatLit (l : List Char) : Option (Nat × List Char) :=
  let ds := l.takeWhile (fun c => c.isDigit)
  if ds.isEmpty then none
  else some (ds.foldl (fun n c => n * 10 + (c.toNat - 48)) 0, l.drop ds.length)

/-- Parse the `playlistId` position: `null` or a string literal. -/
def parsePlaylistId (l : List Char) : Option (Option String × List Char) :=
  match expectChars "null".data l with
  | some rest => some (none, rest)
  | none => (parseStringLit l).map (fun r => (some r.1, r.2))

/-- Parse the `isPermanent` position: `true` or `false`. -/
def parseBoolLit (l : List Char) : Option (Bool × List Char) :=
  match expectChars "true".data l with
  | some rest => some (true, rest)
  | none => (expectChars "false".data l).map (fun rest => (false, rest))

/-- First half of the deserializer instance: the four leading string
fields of the JSON shape `jsonOfPayload` emits. -/
def jsonDesStrings (l : List Char) :
    Option (String × String × String × String × List Char) :=
  (expectChars "\x7b\"url\":".data l).bind fun l0 =>
  (parseStringLit l0).bind fun ru =>
  (expectChars ",\"user\":".data ru.2).bind fun l1 =>
  (parseStringLit l1).bind fun rn =>
  (expectChars ",\"channel\":".data rn.2).bind fun l2 =>
  (parseStringLit l2).bind fun rc =>
  (expectChars ",\"ip\":".data rc.2).bind fun l3 =>
  (parseStringLit l3).bind fun ri =>
  some (ru.1, rn.1, rc.1, ri.1, ri.2)

/-- Second half of the deserializer instance: the numeric, null-able and
boolean fields, and the closing brace. -/
def jsonDesRest (l : List Char) :
    Option (Nat × Nat × Option String × Bool × String) :=
  (expectChars ",\"issued\":".data l).bind fun l4 =>
  (parseNatLit l4).bind fun rs =>
  (expectChars ",\"expires\":".data rs.2).bind fun l5 =>
  (parseNatLit l5).bind fun re =>
  (expectChars ",\"playlistId\":".data re.2).bind fun l6 =>
  (parsePlaylistId l6).bind fun rp =>
  (expectChars ",\"isPermanent\":".data rp.2).bind fun l7 =>
  (parseBoolLit l7).bind fun rb =>
  (expectChars ",\"nonce\":".data rb.2).bind fun l8 =>
  (parseStringLit l8).bind fun rz =>
  (expectChars "\x7d".data rz.2).bind fun l9 =>
  if l9 = [] then some (rs.1, re.1, rp.1, rb.1, rz.1) else none

/-- Deserializer instance: parser recognizing exactly the JSON shape
`jsonOfPayload` emits (what `JSON.parse` recovers from it). -/
def jsonDes (bs : List Nat) : Option TokenPayload :=
  (jsonDesStrings (bytesToChars bs)).bind fun a =>
  (jsonDesRest a.2.2.2.2).bind fun b =>
  some { url := a.1, user := a.2.1, channel := a.2.2.1, ip := a.2.2.2.1,
         issued := b.1, expires := b.2.1, playlistId := b.2.2.1,
         isPermanent := b.2.2.2.1, nonce := b.2.2.2.2 }

/-- Whether the user behind this quota-state slice holds the permanent
flag (fresh users do not). -/
def histQualified (st : QuotaState) : Bool :=
  (st.history.getD defaultHistory).qualifiedForPermanent

/-- Replace the final character by the base64-alphabet character whose
6-bit value is one greater: a single-byte modification of a token. -/
def bumpLastChar (l : List Char) : List Char :=
  l.dropLast ++ [b64Char ((b64Val (l.getLastD 'A')).getD 0 + 1)]

/-- Number of positions at which two equal-length strings differ. -/
def diffPositions (a b : List Char) : Nat :=
  (List.zipWith (fun x y => if x = y then 0 else 1) a b).sum


/-- Concrete payload flagged permanent but carrying no playlist id,
already past its expiry. -/
def permNoIdPayload : TokenPayload :=
  { url := "u", user := "alice", channel := "c", ip := "i", issued := 0,
    expires := 5, playlistId := none, isPermanent := true, nonce := "n" }

/-- Concrete payload flagged permanent with playlist id `p1`, already
past its expiry. -/
def permWithIdPayload : TokenPayload :=
  { url := "u", user := "alice", channel := "c", ip := "i", issued := 0,
    expires := 5, playlistId := some "p1", isPermanent := true, nonce := "n" }

/-- Concrete disabled quota record: two requests on the books, disabled
at time 1000. -/
def disabledUL : UserLimit :=
  { requests := [500, 600], disabled := true, disabledAt := some 1000,
    createdAt := 500, activePlaylists := [] }

/-- Config with `maxRefreshesInPeriod = 2`, matching the spec's worked
scenario. -/
def winCfg : PlaylistConfig := { maxRefreshesInPeriod := some 2 }

/-- Concrete 16-byte IV for witnesses. -/
def cexIv : List Nat := [0, 1, 2, 3, 4, 5, 6, 7, 8, 9, 10, 11, 12, 13, 14, 15]

/-! ## Theorems -/

theorem jsOr_pos (v : Option Nat) (d : Nat) (hd : 0 < d) : 0 < jsOr v d := by
  cases v with
  | none => simpa [jsOr]
  | some n =>
    by_cases h : n = 0 <;> simp [jsOr, h] <;> omega

theorem mapGet_mapSet_self {α β : Type} [DecidableEq α]
    (m : List (α × β)) (k : α) (v : β) : mapGet (mapSet m k v) k = some v := by
  induction m with
  | nil => simp [mapSet, mapGet, List.find?]
  | cons e rest ih =>
    by_cases h : e.1 = k
    · simp [mapSet, h, mapGet, List.find?]
    · simpa [mapSet, h, mapGet, List.find?, Ne.symm h] using ih

theorem lookupCount_bump (rt : List (List Char × Nat)) (k : List Char) :
    lookupCount (mapSet rt k (lookupCount rt k + 1)) k = lookupCount rt k + 1 := by
  simp [lookupCount, mapGet_mapSet_self]

/-- Promotion in `updateUserPlaylistHistory` never clears the flag. -/
theorem updateUserPlaylistHistory_preserves_qualified
    (cfg : PlaylistConfig) (now : Nat) (h : UserHistory)
    (hq : h.qualifiedForPermanent = true) :
    (updateUserPlaylistHistory cfg now h).qualifiedForPermanent = true := by
  simp [updateUserPlaylistHistory, hq]

/-- Single-request preservation of the permanent flag through
`checkPlaylistRequestLimit`, whatever branch the request takes. -/
theorem checkPlaylistRequestLimit_preserves_qualified
    (cfg : PlaylistConfig) (user : Option UserRec) (isInGroup : Bool)
    (now : Nat) (st : QuotaState) (hq : histQualified st = true) :
    histQualified (checkPlaylistRequestLimit cfg user isInGroup now st).2 = true := by
  cases user with
  | none => simpa [checkPlaylistRequestLimit]
  | some u =>
    by_cases ht : jsTruthyNat u.telegramUserId
    · by_cases hg : isInGroup
      · simp only [checkPlaylistRequestLimit, ht, hg]
        simp only [not_true, if_false, ite_false, ite_true, not_false_iff]
        split
        · simpa [histQualified] using hq
        · split
          · simpa [histQualified] using hq
          · split
            · simpa [histQualified] using hq
            · simp only [histQualified, Option.getD_some]
              exact updateUserPlaylistHistory_preserves_qualified _ _ _
                (by simpa [histQualified] using hq)
      · simpa [checkPlaylistRequestLimit, ht, hg] using hq
    · simpa [checkPlaylistRequestLimit, ht] using hq

theorem runRequests_preserves_qualified
    (cfg : PlaylistConfig) (user : Option UserRec) (isInGroup : Bool)
    (ts : List Nat) (st : QuotaState) (hq : histQualified st = true) :
    histQualified (runRequests cfg user isInGroup ts st).2 = true := by
  induction ts generalizing st with
  | nil => simpa [runRequests]
  | cons t ts ih =>
    simp only [runRequests]
    exact ih _ (checkPlaylistRequestLimit_preserves_qualified cfg user isInGroup t st hq)

/-- C6: once `qualifiedForPermanent` is true it stays true: a history
update preserves it, a single quota check (any branch, any request time,
any group answer) preserves it, and hence any sequence of playlist
requests preserves it. -/
theorem qualifiedForPermanent_monotone :
    (∀ (cfg : PlaylistConfig) (now : Nat) (h : UserHistory),
      h.qualifiedForPermanent = true →
      (updateUserPlaylistHistory cfg now h).qualifiedForPermanent = true) ∧
    (∀ (cfg : PlaylistConfig) (user : Option UserRec) (isInGroup : Bool)
      (now : Nat) (st : QuotaState), histQualified st = true →
      histQualified (checkPlaylistRequestLimit cfg user isInGroup now st).2 = true) ∧
    (∀ (cfg : PlaylistConfig) (user : Option UserRec) (isInGroup : Bool)
      (ts : List Nat) (st : QuotaState), histQualified st = true →
      histQualified (runRequests cfg user isInGroup ts st).2 = true) := by
  refine ⟨?_, ?_, ?_⟩
  · exact fun cfg now h hq => updateUserPlaylistHistory_preserves_qualified cfg now h hq
  · exact fun cfg user g now st hq =>
      checkPlaylistRequestLimit_preserves_qualified cfg user g now st hq
  · exact fun cfg user g ts st hq => runRequests_preserves_qualified cfg user g ts st hq

/-- Witness for C6 at a concrete qualified state: a burst of three
requests leaves the flag set. -/
theorem qualifiedForPermanent_monotone_witness :
    histQualified (runRequests {} (some { telegramUserId := some 7 }) true
      [1000, 1001, 1002]
      { userLimit := none,
        history := some { totalRequests := 2,
                          firstRequestTime := some 10,
                          lastRequestTime := some 20,
                          qualifiedForPermanent := true,
                          qualificationTime := some 20 } }).2 = true :=
  qualifiedForPermanent_monotone.2.2 {} (some { telegramUserId := some 7 }) true
    [1000, 1001, 1002] _ (by decide)

/-- C7: a user is newly promoted by `updateUserPlaylistHistory` exactly
when the recorded first request lies at least `refreshLimitPeriod`
(`windowPeriod`) in the past and the updated `totalRequests` counter is
strictly below `permanentLinkThreshold`; on the very first recorded
request (no `firstRequestTime` yet) no promotion can happen.  The
positivity hypothesis on the stored first-request time only rules out the
unreachable epoch instant 0, which JS truthiness would treat as absent. -/
theorem promotion_iff :
    (∀ (cfg : PlaylistConfig) (now : Nat) (h : UserHistory) (t : Nat),
      h.firstRequestTime = some t → 0 < t → h.qualifiedForPermanent = false →
      ((updateUserPlaylistHistory cfg now h).qualifiedForPermanent = true ↔
        (jsOr cfg.refreshLimitPeriod 18000000 ≤ now - t ∧
         h.totalRequests + 1 < jsOr cfg.permanentLinkThreshold 5))) ∧
    (∀ (cfg : PlaylistConfig) (now : Nat) (h : UserHistory),
      h.firstRequestTime = none → h.qualifiedForPermanent = false →
      (updateUserPlaylistHistory cfg now h).qualifiedForPermanent = false) := by
  constructor
  · intro cfg now h t hf ht hq
    have htt : jsTruthyNat (some t) = true := by
      simp [jsTruthyNat]; omega
    simp [updateUserPlaylistHistory, hf, hq, htt]
  · intro cfg now h hf hq
    have hp : 0 < jsOr cfg.refreshLimitPeriod 18000000 :=
      jsOr_pos _ _ (by norm_num)
    simp [updateUserPlaylistHistory, hf, hq, jsTruthyNat]
    omega

/-- Witness for C7: a second request made one full window after the
first promotes the user. -/
theorem promotion_iff_witness :
    (updateUserPlaylistHistory {} 18000001
      { totalRequests := 1, firstRequestTime := some 1,
        lastRequestTime := some 1, qualifiedForPermanent := false,
        qualificationTime := none }).qualifiedForPermanent = true :=
  (promotion_iff.1 {} 18000001
    { totalRequests := 1, firstRequestTime := some 1,
      lastRequestTime := some 1, qualifiedForPermanent := false,
      qualificationTime := none } 1 rfl (by decide) rfl).mpr (by decide)

/-- C10: a user whose credential record has no `telegramUserId` (a
config-defined user), or a username with no record at all, is answered
`allowed` immediately with the state untouched: no group check can
influence the outcome (the equation holds for both values of
`isInGroup`), no timestamp is recorded, no playlist cap applies, and the
user's record can never become disabled. -/
theorem config_user_unrestricted :
    ∀ (cfg : PlaylistConfig) (isInGroup : Bool) (now : Nat) (st : QuotaState),
      checkPlaylistRequestLimit cfg (some { telegramUserId := none }) isInGroup now st
        = ({ allowed := true }, st) ∧
      checkPlaylistRequestLimit cfg none isInGroup now st
        = ({ allowed := true }, st) := by
  intro cfg isInGroup now st
  constructor
  · simp [checkPlaylistRequestLimit, jsTruthyNat]
  · simp [checkPlaylistRequestLimit]

/-- C4 (amended): `validateTokenPayload` fails with `EXPIRED` exactly when
the current time is past the payload's expiry and the payload is **not**
both flagged `isPermanent` and carrying a (truthy) `playlistId` — a
permanent flag alone does not skip the expiry check.  A payload flagged
permanent with its playlistId skips expiry but is rejected with
`PLAYLIST_NOT_FOUND` when the id is absent from the persistent store, and
remains subject to the usage-count check. -/
theorem validate_expired_characterization :
    ∀ (seccfg : SecurityConfig) (pers : List String)
      (rt : List (List Char × Nat)) (now : Nat) (p : TokenPayload)
      (username clientIP : String) (tok : List Char),
      (validateTokenPayload seccfg pers rt now p username clientIP tok
          = .failure .EXPIRED ↔
        (¬(p.isPermanent = true ∧ jsTruthyStr p.playlistId = true) ∧
          p.expires < now)) ∧
      (p.isPermanent = true → jsTruthyStr p.playlistId = true →
        p.playlistId.getD "" ∉ pers →
        validateTokenPayload seccfg pers rt now p username clientIP tok
          = .failure .PLAYLIST_NOT_FOUND) ∧
      (p.isPermanent = true → jsTruthyStr p.playlistId = true →
        p.playlistId.getD "" ∈ pers → p.user = username →
        (seccfg.enableIPBinding = true → p.ip = clientIP) →
        jsOr seccfg.maxTokenUsage 3 * 10
            ≤ lookupCount rt (username.data ++ '_' :: tok) →
        validateTokenPayload seccfg pers rt now p username clientIP tok
          = .failure .USAGE_LIMIT) := by
  intro seccfg pers rt now p username clientIP tok
  refine ⟨?_, ?_, ?_⟩
  · by_cases hperm : p.isPermanent = true ∧ jsTruthyStr p.playlistId = true
    · by_cases hmem : p.playlistId.getD "" ∈ pers
      · simp only [validateTokenPayload, hperm.1, hperm.2, Bool.and_self,
          if_pos hmem, if_true]
        split_ifs <;> simp_all
      · simp only [validateTokenPayload, hperm.1, hperm.2, Bool.and_self,
          if_neg hmem, if_true]
        simp_all
    · have hb : (p.isPermanent && jsTruthyStr p.playlistId) = false := by
        rcases Bool.eq_false_or_eq_true p.isPermanent with h | h <;>
          rcases Bool.eq_false_or_eq_true (jsTruthyStr p.playlistId) with h2 | h2 <;>
          simp_all
      by_cases hexp : p.expires < now
      · simp [validateTokenPayload, hb, hexp, hperm]
      · simp only [validateTokenPayload, hb, Bool.false_eq_true, if_false,
          if_neg hexp]
        split_ifs <;> simp_all
  · intro h1 h2 hmem
    simp [validateTokenPayload, h1, h2, hmem]
  · intro h1 h2 hmem huser hip hcap
    simp [validateTokenPayload, h1, h2, hmem, huser]
    split_ifs with hb
    · exact absurd (hip hb.1) hb.2
    · rfl

/-- Counterexample to C4 as stated: a payload flagged `isPermanent` but
with `playlistId` null is rejected with `EXPIRED` once past its expiry,
although the claim's iff says `EXPIRED` requires the payload not to be
flagged permanent. -/
theorem validate_expired_cex :
    validateTokenPayload {} [] [] 10 permNoIdPayload "alice" "i" []
        = .failure .EXPIRED ∧
    permNoIdPayload.isPermanent = true := by
  constructor
  · decide
  · rfl

/-- Witness for C4 (amended): the three behaviours at concrete inputs —
an expired permanent-without-id payload gives `EXPIRED`, a permanent
payload with an unknown id gives `PLAYLIST_NOT_FOUND`, and a permanent
payload with a known id but an exhausted counter gives `USAGE_LIMIT`. -/
theorem validate_expired_characterization_witness :
    validateTokenPayload {} [] [] 10 permNoIdPayload "alice" "i" []
        = .failure .EXPIRED ∧
    validateTokenPayload {} [] [] 10 permWithIdPayload "alice" "i" []
        = .failure .PLAYLIST_NOT_FOUND ∧
    validateTokenPayload {} ["p1"] [("alice".data ++ ['_'], 30)] 10
        permWithIdPayload "alice" "i" [] = .failure .USAGE_LIMIT := by
  refine ⟨?_, ?_, ?_⟩
  · exact (validate_expired_characterization {} [] [] 10 permNoIdPayload
      "alice" "i" []).1.mpr (by decide)
  · exact (validate_expired_characterization {} [] [] 10 permWithIdPayload
      "alice" "i" []).2.1 rfl (by decide) (by decide)
  · exact (validate_expired_characterization {} ["p1"]
      [("alice".data ++ ['_'], 30)] 10 permWithIdPayload "alice" "i" []).2.2
      rfl (by decide) (by decide) rfl (by decide) (by decide)

/-- C5: for a payload passing the earlier checks (playlist existence for
permanent tokens, expiry for the rest, matching user, IP policy),
verification fails with `USAGE_LIMIT` exactly when the recorded usage
count has reached the cap, where the cap is `maxTokenUsage || 3` for
ordinary tokens and ten times that (a finite number) for permanent ones;
and a successful redirect bumps the count of its `(username, token)` key
by exactly one. -/
theorem usage_limit_characterization :
    ∀ (seccfg : SecurityConfig) (pers : List String)
      (rt : List (List Char × Nat)) (now : Nat) (p : TokenPayload)
      (username clientIP : String) (tok : List Char),
      (p.isPermanent = true ∧ jsTruthyStr p.playlistId = true →
        p.playlistId.getD "" ∈ pers) →
      (¬(p.isPermanent = true ∧ jsTruthyStr p.playlistId = true) →
        now ≤ p.expires) →
      p.user = username →
      (seccfg.enableIPBinding = true → p.ip = clientIP) →
      ((validateTokenPayload seccfg pers rt now p username clientIP tok
          = .failure .USAGE_LIMIT ↔
        (if p.isPermanent then jsOr seccfg.maxTokenUsage 3 * 10
         else jsOr seccfg.maxTokenUsage 3)
          ≤ lookupCount rt (username.data ++ '_' :: tok)) ∧
      (∀ (u c : String) (tk : List Char) (rem : Option Nat) (pm : Bool)
        (pid : Option String),
        lookupCount (handleRedirectUsage rt (.ok u c tk rem pm pid)) tk
          = lookupCount rt tk + 1)) := by
  intro seccfg pers rt now p username clientIP tok hskip hexp huser hip
  constructor
  · by_cases hperm : p.isPermanent = true ∧ jsTruthyStr p.playlistId = true
    · have hmem := hskip hperm
      simp only [validateTokenPayload, hperm.1, hperm.2, Bool.and_self,
        if_pos hmem, if_true, huser]
      split_ifs with hb hc <;> simp_all [lookupCount]
    · have hb : (p.isPermanent && jsTruthyStr p.playlistId) = false := by
        rcases Bool.eq_false_or_eq_true p.isPermanent with h | h <;>
          rcases Bool.eq_false_or_eq_true (jsTruthyStr p.playlistId) with h2 | h2 <;>
          simp_all
      have hnexp : ¬ (p.expires < now) := by
        have := hexp hperm
        omega
      simp only [validateTokenPayload, hb, Bool.false_eq_true, if_false,
        if_neg hnexp, huser]
      split_ifs with hb2 hc <;> simp_all [lookupCount]
  · intro u c tk rem pm pid
    simp [handleRedirectUsage, lookupCount, mapGet_mapSet_self]

/-- Witness for C5 at concrete inputs: with the default base cap 3, a
non-permanent unexpired token whose counter is 3 is rejected with
`USAGE_LIMIT`, one with counter 2 is not, and a successful redirect
moves the counter of its key from 2 to 3. -/
theorem usage_limit_characterization_witness :
    validateTokenPayload {} [] [("alice".data ++ ['_'], 3)] 10
        { url := "u", user := "alice", channel := "c", ip := "i",
          issued := 0, expires := 50, playlistId := none,
          isPermanent := false, nonce := "n" } "alice" "i" []
      = .failure .USAGE_LIMIT ∧
    ¬ (validateTokenPayload {} [] [("alice".data ++ ['_'], 2)] 10
        { url := "u", user := "alice", channel := "c", ip := "i",
          issued := 0, expires := 50, playlistId := none,
          isPermanent := false, nonce := "n" } "alice" "i" []
      = .failure .USAGE_LIMIT) ∧
    lookupCount (handleRedirectUsage [("alice".data ++ ['_'], 2)]
        (.ok "u" "c" ("alice".data ++ ['_']) (some 0) false none))
        ("alice".data ++ ['_'])
      = lookupCount [("alice".data ++ ['_'], 2)] ("alice".data ++ ['_']) + 1 := by
  refine ⟨?_, ?_, ?_⟩
  · exact (usage_limit_characterization {} [] [("alice".data ++ ['_'], 3)] 10
      { url := "u", user := "alice", channel := "c", ip := "i",
        issued := 0, expires := 50, playlistId := none,
        isPermanent := false, nonce := "n" } "alice" "i" []
      (by decide) (by intro _h; decide) rfl (by decide)).1.mpr (by decide)
  · intro hcontra
    have := (usage_limit_characterization {} [] [("alice".data ++ ['_'], 2)] 10
      { url := "u", user := "alice", channel := "c", ip := "i",
        issued := 0, expires := 50, playlistId := none,
        isPermanent := false, nonce := "n" } "alice" "i" []
      (by decide) (by intro _h; decide) rfl (by decide)).1.mp hcontra
    revert this
    decide
  · exact (usage_limit_characterization {} [] [("alice".data ++ ['_'], 2)] 10
      { url := "u", user := "alice", channel := "c", ip := "i",
        issued := 0, expires := 50, playlistId := none,
        isPermanent := false, nonce := "n" } "alice" "i" []
      (by decide) (by intro _h; decide) rfl (by decide)).2 "u" "c"
      ("alice".data ++ ['_']) (some 0) false none

theorem check_disabled_reject (cfg : PlaylistConfig) (tg : Nat)
    (st : QuotaState) (ul : UserLimit) (h : UserHistory) (now td : Nat)
    (htg : tg ≠ 0) (hul : st.userLimit = some ul) (hh : st.history = some h)
    (hd : ul.disabled = true) (hda : ul.disabledAt = some td)
    (hcool : now - td ≤ jsOr cfg.refreshLimitPeriod 18000000)
    (hcap : (prunePlaylists cfg h now ul.activePlaylists).length
      < jsOr cfg.maxSimultaneousPlaylists 3) :
    checkPlaylistRequestLimit cfg (some { telegramUserId := some tg }) true now st
      = ({ allowed := false, reason := some "account_disabled",
           remainingTime := some ((jsOr cfg.refreshLimitPeriod 18000000
             - (now - td) + 59999) / 60000) },
         { userLimit := some { ul with activePlaylists := prunePlaylists cfg h now ul.activePlaylists },
           history := some h }) := by
  have htt : jsTruthyNat (some tg) = true := by simp [jsTruthyNat]; omega
  have hncool : ¬ (jsOr cfg.refreshLimitPeriod 18000000 < now - td) := by omega
  have hnc : ¬ (jsOr cfg.maxSimultaneousPlaylists 3
      ≤ (prunePlaylists cfg h now ul.activePlaylists).length) :=
    Nat.not_le.mpr hcap
  simp [checkPlaylistRequestLimit, htt, hul, hh, hnc, hd, hda, hncool]

theorem check_disabled_reset (cfg : PlaylistConfig) (tg : Nat)
    (st : QuotaState) (ul : UserLimit) (h : UserHistory) (now td : Nat)
    (htg : tg ≠ 0) (hul : st.userLimit = some ul) (hh : st.history = some h)
    (hd : ul.disabled = true) (hda : ul.disabledAt = some td)
    (helapsed : jsOr cfg.refreshLimitPeriod 18000000 < now - td)
    (hcap : (prunePlaylists cfg h now ul.activePlaylists).length
      < jsOr cfg.maxSimultaneousPlaylists 3)
    (hq : h.qualifiedForPermanent = false) :
    (checkPlaylistRequestLimit cfg (some { telegramUserId := some tg })
        true now st).1.allowed = true ∧
    (checkPlaylistRequestLimit cfg (some { telegramUserId := some tg })
        true now st).2.userLimit
      = some { requests := [now], disabled := false, disabledAt := none,
               createdAt := ul.createdAt,
               activePlaylists := prunePlaylists cfg h now ul.activePlaylists } := by
  have htt : jsTruthyNat (some tg) = true := by simp [jsTruthyNat]; omega
  have hnc : ¬ (jsOr cfg.maxSimultaneousPlaylists 3
      ≤ (prunePlaylists cfg h now ul.activePlaylists).length) :=
    Nat.not_le.mpr hcap
  have hmr : ¬ (jsOr cfg.maxRefreshesInPeriod 5 ≤ 0) :=
    Nat.not_le.mpr (jsOr_pos _ _ (by norm_num))
  constructor <;>
    simp [checkPlaylistRequestLimit, htt, hul, hh, hnc, hd, hda, helapsed,
      hq, hmr]

/-- C9: while a user's record is disabled and the cooldown has not yet
elapsed (`now - disabledAt ≤ windowPeriod`), a playlist request that
passes the group and active-playlist checks is rejected with
`account_disabled` together with the remaining cooldown — the figure
`windowPeriod - (now - disabledAt)` reported in minutes, rounded up —
and the record stays disabled; once the cooldown has elapsed
(`now - disabledAt > windowPeriod`), the next request is granted with
the request-timestamp list cleared (it holds only the new request) and
the record back in the enabled state. -/
theorem disabled_cooldown (cfg : PlaylistConfig) (tg : Nat)
    (st : QuotaState) (ul : UserLimit) (h : UserHistory) (now now2 td : Nat)
    (htg : tg ≠ 0) (hul : st.userLimit = some ul) (hh : st.history = some h)
    (hd : ul.disabled = true) (hda : ul.disabledAt = some td)
    (hq : h.qualifiedForPermanent = false)
    (hcool : now - td ≤ jsOr cfg.refreshLimitPeriod 18000000)
    (hcap : (prunePlaylists cfg h now ul.activePlaylists).length
      < jsOr cfg.maxSimultaneousPlaylists 3)
    (helapsed : jsOr cfg.refreshLimitPeriod 18000000 < now2 - td)
    (hcap2 : (prunePlaylists cfg h now2 ul.activePlaylists).length
      < jsOr cfg.maxSimultaneousPlaylists 3) :
    (checkPlaylistRequestLimit cfg (some { telegramUserId := some tg })
        true now st).1
      = { allowed := false, reason := some "account_disabled",
          remainingTime := some ((jsOr cfg.refreshLimitPeriod 18000000
            - (now - td) + 59999) / 60000) } ∧
    ((checkPlaylistRequestLimit cfg (some { telegramUserId := some tg })
        true now st).2.userLimit.getD (newUserLimit 0)).disabled = true ∧
    (checkPlaylistRequestLimit cfg (some { telegramUserId := some tg })
        true now2 st).1.allowed = true ∧
    (checkPlaylistRequestLimit cfg (some { telegramUserId := some tg })
        true now2 st).2.userLimit
      = some { requests := [now2], disabled := false, disabledAt := none,
               createdAt := ul.createdAt,
               activePlaylists := prunePlaylists cfg h now2 ul.activePlaylists } := by
  have h1 := check_disabled_reject cfg tg st ul h now td htg hul hh hd hda
    hcool hcap
  have h2 := check_disabled_reset cfg tg st ul h now2 td htg hul hh hd hda
    helapsed hcap2 hq
  refine ⟨?_, ?_, h2.1, h2.2⟩
  · rw [h1]
  · rw [h1]
    simpa using hd

/-- Witness for C9: with the default five-hour window and a record
disabled at time 1000, a request one hour later is rejected with 240
minutes of cooldown left, and a request just past the window is granted
with the timestamp list reduced to that request. -/
theorem disabled_cooldown_witness :
    (checkPlaylistRequestLimit {} (some { telegramUserId := some 7 }) true
        3601000 { userLimit := some disabledUL, history := some defaultHistory }).1
      = { allowed := false, reason := some "account_disabled",
          remainingTime := some 240 } ∧
    ((checkPlaylistRequestLimit {} (some { telegramUserId := some 7 }) true
        3601000 { userLimit := some disabledUL,
                  history := some defaultHistory }).2.userLimit.getD
        (newUserLimit 0)).disabled = true ∧
    (checkPlaylistRequestLimit {} (some { telegramUserId := some 7 }) true
        18001002 { userLimit := some disabledUL,
                   history := some defaultHistory }).1.allowed = true ∧
    (checkPlaylistRequestLimit {} (some { telegramUserId := some 7 }) true
        18001002 { userLimit := some disabledUL,
                   history := some defaultHistory }).2.userLimit
      = some { requests := [18001002], disabled := false, disabledAt := none,
               createdAt := 500, activePlaylists := [] } :=
  disabled_cooldown {} 7
    { userLimit := some disabledUL, history := some defaultHistory }
    disabledUL defaultHistory 3601000 18001002 1000 (by decide) rfl rfl rfl
    rfl rfl (by decide) (by decide) (by decide) (by decide)

/-- C8: with the hard-wired device cap of 3 and a user holding three
fresh streams from distinct IPs `a`, `b`, `c`: (1) a request exactly
matching a live record returns that record's session id and only
refreshes its `lastActivity`, consuming no slot; (2) a request from the
already-live IP `a` on a different channel is admitted even though three
distinct IPs are live; (3) a request from a fourth IP `d` is rejected on
any channel with the state unchanged; (4) after an explicit release of
`c`'s stream, the request from `d` is admitted. -/
theorem concurrency_device_cap (u ch1 ch2 ch3 ch4 ch : String)
    (a b c d : String) (id1 id2 id3 fid : String) (t now : Nat)
    (sc : List (String × List String))
    (hab : a ≠ b) (hac : a ≠ c) (hbc : b ≠ c)
    (hda : d ≠ a) (hdb : d ≠ b) (hdc : d ≠ c)
    (hch : ch4 ≠ ch1)
    (hfresh : now - t ≤ 300000) :
    (checkStreamConcurrency now fid u ch1 a
        { activeStreams := [(id1, ⟨u, ch1, a, t, t⟩), (id2, ⟨u, ch2, b, t, t⟩),
            (id3, ⟨u, ch3, c, t, t⟩)], streamConnections := sc })
      = (some id1,
         { activeStreams := [(id1, ⟨u, ch1, a, t, now⟩), (id2, ⟨u, ch2, b, t, t⟩),
             (id3, ⟨u, ch3, c, t, t⟩)], streamConnections := sc }) ∧
    (checkStreamConcurrency now fid u ch4 a
        { activeStreams := [(id1, ⟨u, ch1, a, t, t⟩), (id2, ⟨u, ch2, b, t, t⟩),
            (id3, ⟨u, ch3, c, t, t⟩)], streamConnections := sc }).1
      = some fid ∧
    (checkStreamConcurrency now fid u ch d
        { activeStreams := [(id1, ⟨u, ch1, a, t, t⟩), (id2, ⟨u, ch2, b, t, t⟩),
            (id3, ⟨u, ch3, c, t, t⟩)], streamConnections := sc })
      = (none,
         { activeStreams := [(id1, ⟨u, ch1, a, t, t⟩), (id2, ⟨u, ch2, b, t, t⟩),
             (id3, ⟨u, ch3, c, t, t⟩)], streamConnections := sc }) ∧
    (checkStreamConcurrency now fid u ch d
        (removeStreamConnection u ch3 c
          { activeStreams := [(id1, ⟨u, ch1, a, t, t⟩), (id2, ⟨u, ch2, b, t, t⟩),
              (id3, ⟨u, ch3, c, t, t⟩)], streamConnections := sc })).1
      = some fid := by
  have hn : ¬ (300000 < now - t) := by omega
  refine ⟨?_, ?_, ?_, ?_⟩
  · simp [checkStreamConcurrency, cleanupUserInactiveStreams, touchFirst, hn]
  · simp [checkStreamConcurrency, cleanupUserInactiveStreams, touchFirst,
      userDevices, hn, Ne.symm hch, hab, hac, hbc, Ne.symm hab, Ne.symm hac,
      Ne.symm hbc, List.dedup_cons_of_not_mem, List.dedup_cons_of_mem]
  · simp [checkStreamConcurrency, cleanupUserInactiveStreams, touchFirst,
      userDevices, hn, hda, hdb, hdc, Ne.symm hda, Ne.symm hdb, Ne.symm hdc,
      hab, hac, hbc, Ne.symm hab, Ne.symm hac, Ne.symm hbc,
      List.dedup_cons_of_not_mem, List.dedup_cons_of_mem]
  · simp [removeStreamConnection, removeFirstStream, checkStreamConcurrency,
      cleanupUserInactiveStreams, touchFirst, userDevices, hn, hda, hdb, hdc,
      Ne.symm hda, Ne.symm hdb, Ne.symm hdc, hab, hac, hbc, Ne.symm hab,
      Ne.symm hac, Ne.symm hbc, List.dedup_cons_of_not_mem,
      List.dedup_cons_of_mem]

/-- Witness for C8 at concrete values: user `bob` with fresh streams
from `ip1`, `ip2`, `ip3`; re-poll, same-IP new channel, fourth IP
rejection, and post-release admission. -/
theorem concurrency_device_cap_witness :
    (checkStreamConcurrency 200 "s9" "bob" "c1" "ip1"
        { activeStreams := [("s1", ⟨"bob", "c1", "ip1", 100, 100⟩),
            ("s2", ⟨"bob", "c2", "ip2", 100, 100⟩),
            ("s3", ⟨"bob", "c3", "ip3", 100, 100⟩)], streamConnections := [] })
      = (some "s1",
         { activeStreams := [("s1", ⟨"bob", "c1", "ip1", 100, 200⟩),
             ("s2", ⟨"bob", "c2", "ip2", 100, 100⟩),
             ("s3", ⟨"bob", "c3", "ip3", 100, 100⟩)], streamConnections := [] }) ∧
    (checkStreamConcurrency 200 "s9" "bob" "c9" "ip1"
        { activeStreams := [("s1", ⟨"bob", "c1", "ip1", 100, 100⟩),
            ("s2", ⟨"bob", "c2", "ip2", 100, 100⟩),
            ("s3", ⟨"bob", "c3", "ip3", 100, 100⟩)], streamConnections := [] }).1
      = some "s9" ∧
    (checkStreamConcurrency 200 "s9" "bob" "c5" "ip4"
        { activeStreams := [("s1", ⟨"bob", "c1", "ip1", 100, 100⟩),
            ("s2", ⟨"bob", "c2", "ip2", 100, 100⟩),
            ("s3", ⟨"bob", "c3", "ip3", 100, 100⟩)], streamConnections := [] })
      = (none,
         { activeStreams := [("s1", ⟨"bob", "c1", "ip1", 100, 100⟩),
             ("s2", ⟨"bob", "c2", "ip2", 100, 100⟩),
             ("s3", ⟨"bob", "c3", "ip3", 100, 100⟩)], streamConnections := [] }) ∧
    (checkStreamConcurrency 200 "s9" "bob" "c5" "ip4"
        (removeStreamConnection "bob" "c3" "ip3"
          { activeStreams := [("s1", ⟨"bob", "c1", "ip1", 100, 100⟩),
              ("s2", ⟨"bob", "c2", "ip2", 100, 100⟩),
              ("s3", ⟨"bob", "c3", "ip3", 100, 100⟩)], streamConnections := [] })).1
      = some "s9" :=
  concurrency_device_cap "bob" "c1" "c2" "c3" "c9" "c5" "ip1" "ip2" "ip3"
    "ip4" "s1" "s2" "s3" "s9" 100 200 [] (by decide) (by decide) (by decide)
    (by decide) (by decide) (by decide) (by decide) (by decide)

theorem check_step_allowed (cfg : PlaylistConfig) (tg : Nat)
    (reqs : List Nat) (k : Nat) (t1 cAt tl now : Nat)
    (htg : tg ≠ 0) (ht1 : 0 < t1)
    (hge : ∀ r ∈ reqs, t1 ≤ r) (hnow : t1 ≤ now)
    (hwin : now - t1 < jsOr cfg.refreshLimitPeriod 18000000)
    (hlen : reqs.length < jsOr cfg.maxRefreshesInPeriod 5) :
    (checkPlaylistRequestLimit cfg (some { telegramUserId := some tg }) true now
        { userLimit := some ⟨reqs, false, none, cAt, []⟩,
          history := some ⟨k, some t1, some tl, false, none⟩ }).1.allowed = true ∧
    (checkPlaylistRequestLimit cfg (some { telegramUserId := some tg }) true now
        { userLimit := some ⟨reqs, false, none, cAt, []⟩,
          history := some ⟨k, some t1, some tl, false, none⟩ }).2
      = { userLimit := some ⟨reqs ++ [now], false, none, cAt, []⟩,
          history := some ⟨k + 1, some t1, some now, false, none⟩ } := by
  have htt : jsTruthyNat (some tg) = true := by simp [jsTruthyNat]; omega
  have hcap : ¬ (jsOr cfg.maxSimultaneousPlaylists 3 ≤ 0) :=
    Nat.not_le.mpr (jsOr_pos _ _ (by norm_num))
  have hkeep : reqs.filter
      (fun r => decide (now - r < jsOr cfg.refreshLimitPeriod 18000000)) = reqs := by
    apply List.filter_eq_self.mpr
    intro r hr
    have h1 : t1 ≤ r := hge r hr
    simp only [decide_eq_true_eq]
    omega
  have hnl : ¬ (jsOr cfg.maxRefreshesInPeriod 5 ≤ reqs.length) :=
    Nat.not_le.mpr hlen
  have hupd : updateUserPlaylistHistory cfg now ⟨k, some t1, some tl, false, none⟩
      = ⟨k + 1, some t1, some now, false, none⟩ := by
    have htt1 : jsTruthyNat (some t1) = true := by simp [jsTruthyNat]; omega
    have hnq : ¬ (jsOr cfg.refreshLimitPeriod 18000000 ≤ now - t1) :=
      Nat.not_le.mpr hwin
    simp [updateUserPlaylistHistory, htt1, hnq]
  constructor <;>
    simp [checkPlaylistRequestLimit, htt, prunePlaylists, hcap, hkeep, hnl, hupd]

theorem check_first_request (cfg : PlaylistConfig) (tg : Nat) (t1 : Nat)
    (htg : tg ≠ 0) (ht1 : 0 < t1) :
    (checkPlaylistRequestLimit cfg (some { telegramUserId := some tg }) true t1
        { userLimit := none, history := none }).1.allowed = true ∧
    (checkPlaylistRequestLimit cfg (some { telegramUserId := some tg }) true t1
        { userLimit := none, history := none }).2
      = { userLimit := some ⟨[t1], false, none, t1, []⟩,
          history := some ⟨1, some t1, some t1, false, none⟩ } := by
  have htt : jsTruthyNat (some tg) = true := by simp [jsTruthyNat]; omega
  have hcap : ¬ (jsOr cfg.maxSimultaneousPlaylists 3 ≤ 0) :=
    Nat.not_le.mpr (jsOr_pos _ _ (by norm_num))
  have hnl : ¬ (jsOr cfg.maxRefreshesInPeriod 5 ≤ 0) :=
    Nat.not_le.mpr (jsOr_pos _ _ (by norm_num))
  have hnq : ¬ (jsOr cfg.refreshLimitPeriod 18000000 ≤ t1 - t1) := by
    have := jsOr_pos cfg.refreshLimitPeriod 18000000 (by norm_num)
    omega
  have hP : jsOr cfg.refreshLimitPeriod 18000000 ≠ 0 :=
    Nat.pos_iff_ne_zero.mp (jsOr_pos _ _ (by norm_num))
  constructor <;>
    simp [checkPlaylistRequestLimit, htt, htg, newUserLimit, defaultHistory,
      prunePlaylists, hcap, hnl, updateUserPlaylistHistory, jsTruthyNat, hnq, hP]

theorem runRequests_within_window (cfg : PlaylistConfig) (tg : Nat)
    (htg : tg ≠ 0) (t1 : Nat) (ht1 : 0 < t1) :
    ∀ (ts reqs : List Nat) (k cAt tl : Nat),
      (∀ r ∈ reqs, t1 ≤ r) →
      (∀ x ∈ ts, t1 ≤ x ∧ x - t1 < jsOr cfg.refreshLimitPeriod 18000000) →
      reqs.length + ts.length ≤ jsOr cfg.maxRefreshesInPeriod 5 →
      (∀ r ∈ (runRequests cfg (some { telegramUserId := some tg }) true ts
          { userLimit := some ⟨reqs, false, none, cAt, []⟩,
            history := some ⟨k, some t1, some tl, false, none⟩ }).1,
        r.allowed = true) ∧
      (runRequests cfg (some { telegramUserId := some tg }) true ts
          { userLimit := some ⟨reqs, false, none, cAt, []⟩,
            history := some ⟨k, some t1, some tl, false, none⟩ }).2
        = { userLimit := some ⟨reqs ++ ts, false, none, cAt, []⟩,
            history := some ⟨k + ts.length, some t1, some (ts.getLastD tl),
              false, none⟩ } := by
  intro ts
  induction ts with
  | nil =>
    intro reqs k cAt tl _hge _hx _hlen
    simp [runRequests]
  | cons x rest ih =>
    intro reqs k cAt tl hge hx hlen
    have hx1 := hx x (by simp)
    have hstep := check_step_allowed cfg tg reqs k t1 cAt tl x htg ht1 hge
      hx1.1 hx1.2 (by simp at hlen; omega)
    have hge2 : ∀ r ∈ reqs ++ [x], t1 ≤ r := by
      intro r hr
      rcases List.mem_append.mp hr with h | h
      · exact hge r h
      · simp at h; omega
    have hx2 : ∀ y ∈ rest, t1 ≤ y ∧
        y - t1 < jsOr cfg.refreshLimitPeriod 18000000 := by
      intro y hy
      exact hx y (by simp [hy])
    have hlen2 : (reqs ++ [x]).length + rest.length
        ≤ jsOr cfg.maxRefreshesInPeriod 5 := by
      simp at hlen ⊢
      omega
    have hrec := ih (reqs ++ [x]) (k + 1) cAt x hge2 hx2 hlen2
    simp only [runRequests]
    rw [hstep.2]
    constructor
    · intro r hr
      simp only [List.mem_cons] at hr
      rcases hr with h | h
      · rw [h]; exact hstep.1
      · exact hrec.1 r h
    · rw [hrec.2, List.getLastD_cons]
      simp only [List.append_assoc, List.singleton_append, List.length_cons]
      have hk : k + 1 + rest.length = k + (rest.length + 1) := by omega
      rw [hk]

theorem check_limit_exceeded (cfg : PlaylistConfig) (tg : Nat)
    (reqs : List Nat) (k : Nat) (t1 cAt tl now : Nat)
    (htg : tg ≠ 0)
    (hge : ∀ r ∈ reqs, t1 ≤ r)
    (hwin : now - t1 < jsOr cfg.refreshLimitPeriod 18000000)
    (hfull : jsOr cfg.maxRefreshesInPeriod 5 ≤ reqs.length) :
    checkPlaylistRequestLimit cfg (some { telegramUserId := some tg }) true now
        { userLimit := some ⟨reqs, false, none, cAt, []⟩,
          history := some ⟨k, some t1, some tl, false, none⟩ }
      = ({ allowed := false, reason := some "limit_exceeded" },
         { userLimit := some ⟨reqs, true, some now, cAt, []⟩,
           history := some ⟨k, some t1, some tl, false, none⟩ }) := by
  have htt : jsTruthyNat (some tg) = true := by simp [jsTruthyNat]; omega
  have hcap : ¬ (jsOr cfg.maxSimultaneousPlaylists 3 ≤ 0) :=
    Nat.not_le.mpr (jsOr_pos _ _ (by norm_num))
  have hkeep : reqs.filter
      (fun r => decide (now - r < jsOr cfg.refreshLimitPeriod 18000000)) = reqs := by
    apply List.filter_eq_self.mpr
    intro r hr
    have h1 : t1 ≤ r := hge r hr
    simp only [decide_eq_true_eq]
    omega
  simp [checkPlaylistRequestLimit, htt, prunePlaylists, hcap, hkeep, hfull]

/-- C1: for a Telegram-backed, in-group, non-permanent user starting
fresh with `maxRequestsInWindow = N` (`maxRefreshesInPeriod`), the first
`N` playlist requests inside one rolling window are all granted; the
`(N+1)`th request inside the window is rejected with `limit_exceeded`
and disables the record with `disabledAt` set to that request's time;
and a request made strictly more than `windowPeriod` after `disabledAt`
is granted again with the request-timestamp list cleared (it then holds
only the new request). -/
theorem quota_window_exact (cfg : PlaylistConfig) (tg N : Nat)
    (t1 : Nat) (rest : List Nat) (tb tr : Nat)
    (htg : tg ≠ 0) (ht1 : 0 < t1)
    (hN : jsOr cfg.maxRefreshesInPeriod 5 = N)
    (hlen : rest.length + 1 = N)
    (hwin : ∀ x ∈ rest, t1 ≤ x ∧ x - t1 < jsOr cfg.refreshLimitPeriod 18000000)
    (hb1 : t1 ≤ tb) (hb2 : tb - t1 < jsOr cfg.refreshLimitPeriod 18000000)
    (hr : jsOr cfg.refreshLimitPeriod 18000000 < tr - tb) :
    (∀ r ∈ (runRequests cfg (some { telegramUserId := some tg }) true
        (t1 :: rest) { userLimit := none, history := none }).1,
      r.allowed = true) ∧
    (checkPlaylistRequestLimit cfg (some { telegramUserId := some tg }) true tb
        (runRequests cfg (some { telegramUserId := some tg }) true (t1 :: rest)
          { userLimit := none, history := none }).2).1
      = { allowed := false, reason := some "limit_exceeded" } ∧
    ((checkPlaylistRequestLimit cfg (some { telegramUserId := some tg }) true tb
        (runRequests cfg (some { telegramUserId := some tg }) true (t1 :: rest)
          { userLimit := none, history := none }).2).2.userLimit.getD
        (newUserLimit 0)).disabled = true ∧
    ((checkPlaylistRequestLimit cfg (some { telegramUserId := some tg }) true tb
        (runRequests cfg (some { telegramUserId := some tg }) true (t1 :: rest)
          { userLimit := none, history := none }).2).2.userLimit.getD
        (newUserLimit 0)).disabledAt = some tb ∧
    (checkPlaylistRequestLimit cfg (some { telegramUserId := some tg }) true tr
        (checkPlaylistRequestLimit cfg (some { telegramUserId := some tg })
          true tb
          (runRequests cfg (some { telegramUserId := some tg }) true (t1 :: rest)
            { userLimit := none, history := none }).2).2).1.allowed = true ∧
    ((checkPlaylistRequestLimit cfg (some { telegramUserId := some tg }) true tr
        (checkPlaylistRequestLimit cfg (some { telegramUserId := some tg })
          true tb
          (runRequests cfg (some { telegramUserId := some tg }) true (t1 :: rest)
            { userLimit := none, history := none }).2).2).2.userLimit.getD
        (newUserLimit 0)).requests = [tr] := by
  have hfirst := check_first_request cfg tg t1 htg ht1
  have hphase := runRequests_within_window cfg tg htg t1 ht1 rest [t1] 1 t1 t1
    (by intro r hr; simp at hr; omega) hwin (by simp; omega)
  have hrun : (runRequests cfg (some { telegramUserId := some tg }) true
      (t1 :: rest) { userLimit := none, history := none })
      = ((checkPlaylistRequestLimit cfg (some { telegramUserId := some tg })
            true t1 { userLimit := none, history := none }).1
          :: (runRequests cfg (some { telegramUserId := some tg }) true rest
            { userLimit := some ⟨[t1], false, none, t1, []⟩,
              history := some ⟨1, some t1, some t1, false, none⟩ }).1,
         (runRequests cfg (some { telegramUserId := some tg }) true rest
            { userLimit := some ⟨[t1], false, none, t1, []⟩,
              history := some ⟨1, some t1, some t1, false, none⟩ }).2) := by
    simp only [runRequests]
    rw [hfirst.2]
  have hge : ∀ r ∈ t1 :: rest, t1 ≤ r := by
    intro r hr
    rcases List.mem_cons.mp hr with h | h
    · omega
    · exact (hwin r h).1
  have hlim := check_limit_exceeded cfg tg (t1 :: rest) (1 + rest.length) t1
    t1 (rest.getLastD t1) tb htg hge hb2 (by simp; omega)
  have hS1 : (runRequests cfg (some { telegramUserId := some tg }) true
      (t1 :: rest) { userLimit := none, history := none }).2
      = { userLimit := some ⟨t1 :: rest, false, none, t1, []⟩,
          history := some ⟨1 + rest.length, some t1, some (rest.getLastD t1),
            false, none⟩ } := by
    rw [hrun]
    simpa using hphase.2
  have hcap2 : (prunePlaylists cfg
      ⟨1 + rest.length, some t1, some (rest.getLastD t1), false, none⟩ tr
      ([] : List ActivePlaylist)).length < jsOr cfg.maxSimultaneousPlaylists 3 := by
    simp [prunePlaylists]
    exact jsOr_pos _ _ (by norm_num)
  have hreset := check_disabled_reset cfg tg
    { userLimit := some ⟨t1 :: rest, true, some tb, t1, []⟩,
      history := some ⟨1 + rest.length, some t1, some (rest.getLastD t1),
        false, none⟩ }
    ⟨t1 :: rest, true, some tb, t1, []⟩
    ⟨1 + rest.length, some t1, some (rest.getLastD t1), false, none⟩
    tr tb htg rfl rfl rfl rfl hr hcap2 rfl
  refine ⟨?_, ?_, ?_, ?_, ?_, ?_⟩
  · rw [hrun]
    intro r hr
    rcases List.mem_cons.mp hr with h | h
    · rw [h]; exact hfirst.1
    · exact hphase.1 r (by simpa using h)
  · rw [hS1, hlim]
  · rw [hS1, hlim]
    rfl
  · rw [hS1, hlim]
    rfl
  · rw [hS1, hlim]
    exact hreset.1
  · rw [hS1, hlim, hreset.2]
    rfl

/-- Witness for C1, the spec's worked scenario: `maxRequestsInWindow = 2`
with the default five-hour window; requests at 1000 and 61000 are
granted, the request at 121000 is rejected with `limit_exceeded` and
disables the record at 121000, and a request at 18121002 (more than the
window past the disable time) is granted with the timestamp list holding
only it. -/
theorem quota_window_exact_witness :
    (∀ r ∈ (runRequests winCfg (some { telegramUserId := some 7 }) true
        [1000, 61000] { userLimit := none, history := none }).1,
      r.allowed = true) ∧
    (checkPlaylistRequestLimit winCfg (some { telegramUserId := some 7 })
        true 121000
        (runRequests winCfg (some { telegramUserId := some 7 }) true
          [1000, 61000] { userLimit := none, history := none }).2).1
      = { allowed := false, reason := some "limit_exceeded" } ∧
    ((checkPlaylistRequestLimit winCfg (some { telegramUserId := some 7 })
        true 121000
        (runRequests winCfg (some { telegramUserId := some 7 }) true
          [1000, 61000] { userLimit := none, history := none }).2).2.userLimit.getD
        (newUserLimit 0)).disabled = true ∧
    ((checkPlaylistRequestLimit winCfg (some { telegramUserId := some 7 })
        true 121000
        (runRequests winCfg (some { telegramUserId := some 7 }) true
          [1000, 61000] { userLimit := none, history := none }).2).2.userLimit.getD
        (newUserLimit 0)).disabledAt = some 121000 ∧
    (checkPlaylistRequestLimit winCfg (some { telegramUserId := some 7 })
        true 18121002
        (checkPlaylistRequestLimit winCfg (some { telegramUserId := some 7 })
          true 121000
          (runRequests winCfg (some { telegramUserId := some 7 }) true
            [1000, 61000] { userLimit := none, history := none }).2).2).1.allowed
      = true ∧
    ((checkPlaylistRequestLimit winCfg (some { telegramUserId := some 7 })
        true 18121002
        (checkPlaylistRequestLimit winCfg (some { telegramUserId := some 7 })
          true 121000
          (runRequests winCfg (some { telegramUserId := some 7 }) true
            [1000, 61000] { userLimit := none, history := none }).2).2).2.userLimit.getD
        (newUserLimit 0)).requests = [18121002] :=
  quota_window_exact winCfg 7 2 1000 [61000] 121000 18121002 (by decide)
    (by decide) (by decide) (by decide) (by decide) (by decide) (by decide)
    (by decide)

theorem hexVal_hexDigit : ∀ n, n < 16 → hexVal (hexDigit n) = some n := by
  decide

theorem hexDigit_ne_colon : ∀ n, n < 16 → hexDigit n ≠ ':' := by decide

theorem b64Val_b64Char : ∀ v, v < 64 → b64Val (b64Char v) = some v := by
  decide

theorem b64Char_ne_pad : ∀ v, v < 64 → b64Char v ≠ '=' := by decide

theorem b64Char_ne_urlchars : ∀ v, v < 64 →
    b64Char v ≠ '-' ∧ b64Char v ≠ '_' := by decide

theorem b64decode_b64encode : ∀ bs : List Nat, (∀ b ∈ bs, b < 256) →
    b64decode (b64encode bs) = some bs := by
  intro bs
  induction bs using b64encode.induct with
  | case1 => intro _; rfl
  | case2 b1 =>
    intro hb
    have h1 : b1 < 256 := hb b1 (by simp)
    have e1 := b64Val_b64Char (b1 / 4) (by omega)
    have e2 := b64Val_b64Char (b1 % 4 * 16) (by omega)
    simp only [b64encode, b64decode, e1, e2]
    simp
    omega
  | case3 b1 b2 =>
    intro hb
    have h1 : b1 < 256 := hb b1 (by simp)
    have h2 : b2 < 256 := hb b2 (by simp)
    have e1 := b64Val_b64Char (b1 / 4) (by omega)
    have e2 := b64Val_b64Char (b1 % 4 * 16 + b2 / 16) (by omega)
    have e3 := b64Val_b64Char (b2 % 16 * 4) (by omega)
    have ne3 := b64Char_ne_pad (b2 % 16 * 4) (by omega)
    simp only [b64encode, b64decode, e1, e2, e3, if_neg ne3]
    have g1 : b1 / 4 * 4 + (b1 % 4 * 16 + b2 / 16) / 16 = b1 := by omega
    simp [g1]
    omega
  | case4 b1 b2 b3 rest ih =>
    intro hb
    have h1 : b1 < 256 := hb b1 (by simp)
    have h2 : b2 < 256 := hb b2 (by simp)
    have h3 : b3 < 256 := hb b3 (by simp)
    have hrest : ∀ b ∈ rest, b < 256 := fun b hbr => hb b (by simp [hbr])
    have e1 := b64Val_b64Char (b1 / 4) (by omega)
    have e2 := b64Val_b64Char (b1 % 4 * 16 + b2 / 16) (by omega)
    have e3 := b64Val_b64Char (b2 % 16 * 4 + b3 / 64) (by omega)
    have e4 := b64Val_b64Char (b3 % 64) (by omega)
    have ne3 := b64Char_ne_pad (b2 % 16 * 4 + b3 / 64) (by omega)
    have ne4 := b64Char_ne_pad (b3 % 64) (by omega)
    simp only [b64encode, b64decode, e1, e2, e3, e4, if_neg ne3, if_neg ne4,
      ih hrest]
    have g1 : b1 / 4 * 4 + (b1 % 4 * 16 + b2 / 16) / 16 = b1 := by omega
    have g2 : (b1 % 4 * 16 + b2 / 16) % 16 * 16 + (b2 % 16 * 4 + b3 / 64) / 4
        = b2 := by omega
    have g3 : (b2 % 16 * 4 + b3 / 64) % 4 * 64 + b3 % 64 = b3 := by omega
    simp [g1, g2, g3]

theorem padTo4_cons4 (a b c d : Char) (l : List Char) :
    padTo4 (a :: b :: c :: d :: l) = a :: b :: c :: d :: padTo4 l := by
  have hm : (l.length + 1 + 1 + 1 + 1) % 4 = l.length % 4 := by omega
  simp [padTo4, hm]

theorem mem_b64encode_class : ∀ bs : List Nat, (∀ b ∈ bs, b < 256) →
    ∀ c ∈ b64encode bs, c = '=' ∨ ∃ v, v < 64 ∧ c = b64Char v := by
  intro bs
  induction bs using b64encode.induct with
  | case1 => intro _ c hc; simp [b64encode] at hc
  | case2 b1 =>
    intro hb c hc
    have h1 : b1 < 256 := hb b1 (by simp)
    simp only [b64encode, List.mem_cons, List.mem_singleton] at hc
    rcases hc with h | h | h | h
    · exact Or.inr ⟨b1 / 4, by omega, h⟩
    · exact Or.inr ⟨b1 % 4 * 16, by omega, h⟩
    · exact Or.inl h
    · simp at h; exact Or.inl h
  | case3 b1 b2 =>
    intro hb c hc
    have h1 : b1 < 256 := hb b1 (by simp)
    have h2 : b2 < 256 := hb b2 (by simp)
    simp only [b64encode, List.mem_cons, List.mem_singleton] at hc
    rcases hc with h | h | h | h
    · exact Or.inr ⟨b1 / 4, by omega, h⟩
    · exact Or.inr ⟨b1 % 4 * 16 + b2 / 16, by omega, h⟩
    · exact Or.inr ⟨b2 % 16 * 4, by omega, h⟩
    · simp at h; exact Or.inl h
  | case4 b1 b2 b3 rest ih =>
    intro hb c hc
    have h1 : b1 < 256 := hb b1 (by simp)
    have h2 : b2 < 256 := hb b2 (by simp)
    have h3 : b3 < 256 := hb b3 (by simp)
    have hrest : ∀ b ∈ rest, b < 256 := fun b hbr => hb b (by simp [hbr])
    simp only [b64encode, List.mem_cons] at hc
    rcases hc with h | h | h | h | h
    · exact Or.inr ⟨b1 / 4, by omega, h⟩
    · exact Or.inr ⟨b1 % 4 * 16 + b2 / 16, by omega, h⟩
    · exact Or.inr ⟨b2 % 16 * 4 + b3 / 64, by omega, h⟩
    · exact Or.inr ⟨b3 % 64, by omega, h⟩
    · exact ih hrest c h

theorem padTo4_strip_b64encode : ∀ bs : List Nat, (∀ b ∈ bs, b < 256) →
    padTo4 ((b64encode bs).filter (fun c => c ≠ '=')) = b64encode bs := by
  intro bs
  induction bs using b64encode.induct with
  | case1 => intro _; rfl
  | case2 b1 =>
    intro hb
    have h1 : b1 < 256 := hb b1 (by simp)
    have n1 := b64Char_ne_pad (b1 / 4) (by omega)
    have n2 := b64Char_ne_pad (b1 % 4 * 16) (by omega)
    simp [b64encode, List.filter, n1, n2, padTo4]
  | case3 b1 b2 =>
    intro hb
    have h1 : b1 < 256 := hb b1 (by simp)
    have h2 : b2 < 256 := hb b2 (by simp)
    have n1 := b64Char_ne_pad (b1 / 4) (by omega)
    have n2 := b64Char_ne_pad (b1 % 4 * 16 + b2 / 16) (by omega)
    have n3 := b64Char_ne_pad (b2 % 16 * 4) (by omega)
    simp [b64encode, List.filter, n1, n2, n3, padTo4]
  | case4 b1 b2 b3 rest ih =>
    intro hb
    have h1 : b1 < 256 := hb b1 (by simp)
    have h2 : b2 < 256 := hb b2 (by simp)
    have h3 : b3 < 256 := hb b3 (by simp)
    have hrest : ∀ b ∈ rest, b < 256 := fun b hbr => hb b (by simp [hbr])
    have n1 := b64Char_ne_pad (b1 / 4) (by omega)
    have n2 := b64Char_ne_pad (b1 % 4 * 16 + b2 / 16) (by omega)
    have n3 := b64Char_ne_pad (b2 % 16 * 4 + b3 / 64) (by omega)
    have n4 := b64Char_ne_pad (b3 % 64) (by omega)
    simp [b64encode, List.filter_cons, n1, n2, n3, n4, padTo4_cons4]
    simpa using ih hrest

theorem urlsafe_roundtrip_b64 : ∀ v, v < 64 →
    urlSafeChar (b64Char v) ≠ '=' ∧
    unUrlSafeChar (urlSafeChar (b64Char v)) = b64Char v := by decide

theorem map_unUrlSafe_strip : ∀ l : List Char,
    (∀ c ∈ l, c = '=' ∨ ∃ v, v < 64 ∧ c = b64Char v) →
    ((l.map urlSafeChar).filter (fun c => c ≠ '=')).map unUrlSafeChar
      = l.filter (fun c => c ≠ '=') := by
  intro l
  induction l with
  | nil => intro _; rfl
  | cons c t ih =>
    intro hc
    have hch := hc c (by simp)
    have ht : ∀ x ∈ t, x = '=' ∨ ∃ v, v < 64 ∧ x = b64Char v :=
      fun x hx => hc x (by simp [hx])
    rcases hch with h | ⟨v, hv, h⟩
    · subst h
      simp [urlSafeChar, List.filter]
      simpa using ih ht
    · subst h
      have hr := urlsafe_roundtrip_b64 v hv
      have hne := b64Char_ne_pad v hv
      simp [List.filter, hr.1, hne, hr.2]
      simpa using ih ht

theorem hexDecode_hexEncode : ∀ bs : List Nat, (∀ b ∈ bs, b < 256) →
    hexDecode (hexEncode bs) = some bs := by
  intro bs
  induction bs with
  | nil => intro _; rfl
  | cons b t ih =>
    intro hb
    have h1 : b < 256 := hb b (by simp)
    have ht : ∀ x ∈ t, x < 256 := fun x hx => hb x (by simp [hx])
    have e1 := hexVal_hexDigit (b / 16) (by omega)
    have e2 := hexVal_hexDigit (b % 16) (by omega)
    simp only [hexEncode, hexDecode, e1, e2, ih ht]
    have : b / 16 * 16 + b % 16 = b := by omega
    simp [this]

theorem colon_notin_hexEncode : ∀ bs : List Nat, (∀ b ∈ bs, b < 256) →
    ':' ∉ hexEncode bs := by
  intro bs
  induction bs with
  | nil => intro _; simp [hexEncode]
  | cons b t ih =>
    intro hb
    have h1 : b < 256 := hb b (by simp)
    have ht : ∀ x ∈ t, x < 256 := fun x hx => hb x (by simp [hx])
    have n1 := hexDigit_ne_colon (b / 16) (by omega)
    have n2 := hexDigit_ne_colon (b % 16) (by omega)
    simp only [hexEncode, List.mem_cons]
    push_neg
    exact ⟨fun h => n1 h.symm, fun h => n2 h.symm, ih ht⟩

theorem hexDigit_toNat_lt : ∀ n, n < 16 → (hexDigit n).toNat < 256 := by
  decide

theorem hexEncode_toNat_lt : ∀ bs : List Nat, (∀ b ∈ bs, b < 256) →
    ∀ c ∈ hexEncode bs, c.toNat < 256 := by
  intro bs
  induction bs with
  | nil => intro _ c hc; simp [hexEncode] at hc
  | cons b t ih =>
    intro hb c hc
    have h1 : b < 256 := hb b (by simp)
    have ht : ∀ x ∈ t, x < 256 := fun x hx => hb x (by simp [hx])
    simp only [hexEncode, List.mem_cons] at hc
    rcases hc with h | h | h
    · subst h; exact hexDigit_toNat_lt _ (by omega)
    · subst h; exact hexDigit_toNat_lt _ (by omega)
    · exact ih ht c h

theorem bytesToChars_charsToBytes (l : List Char) :
    bytesToChars (charsToBytes l) = l := by
  simp only [bytesToChars, charsToBytes, List.map_map]
  exact List.map_congr_left (fun c _ => Char.ofNat_toNat c) |>.trans
    (List.map_id l)

theorem splitColon_no_colon : ∀ l : List Char, ':' ∉ l →
    splitColon l = [l] := by
  intro l
  induction l with
  | nil => intro _; rfl
  | cons c t ih =>
    intro h
    have hc : c ≠ ':' := fun hh => h (by simp [hh])
    have ht : ':' ∉ t := fun hh => h (by simp [hh])
    simp [splitColon, hc, ih ht]

theorem splitColon_append : ∀ (a b : List Char), ':' ∉ a →
    splitColon (a ++ ':' :: b) = a :: splitColon b := by
  intro a
  induction a with
  | nil => intro b _; simp [splitColon]
  | cons c t ih =>
    intro b h
    have hc : c ≠ ':' := fun hh => h (by simp [hh])
    have ht : ':' ∉ t := fun hh => h (by simp [hh])
    simp only [List.cons_append, splitColon, hc, if_false, List.append_eq]
    rw [ih b ht]

theorem decrypt_encrypt_reduces (mc : MsgCipher)
    (ser : TokenPayload → List Nat) (des : List Nat → Option TokenPayload)
    (seccfg : SecurityConfig) (pers : List String)
    (rt : List (List Char × Nat)) (cfgP : PlaylistConfig) (iv : List Nat)
    (now now2 : Nat) (url user ch ip : String) (em : Nat)
    (pid : Option String) (perm : Bool) (nonce : String) (uname cip : String)
    (hiv16 : iv.length = 16) (hivb : ∀ b ∈ iv, b < 256)
    (hctb : ∀ b ∈ mc.enc iv
      (ser (mkTokenPayload cfgP now url user ch ip em pid perm nonce)), b < 256)
    (hdec : mc.dec iv (mc.enc iv
        (ser (mkTokenPayload cfgP now url user ch ip em pid perm nonce)))
      = some (ser (mkTokenPayload cfgP now url user ch ip em pid perm nonce)))
    (hdes : des (ser (mkTokenPayload cfgP now url user ch ip em pid perm nonce))
      = some (mkTokenPayload cfgP now url user ch ip em pid perm nonce)) :
    decryptChannelToken mc des seccfg pers rt now2
        (encryptChannelUrl mc ser cfgP iv now url user ch ip em pid perm nonce)
        uname cip
      = validateTokenPayload seccfg pers rt now2
          (mkTokenPayload cfgP now url user ch ip em pid perm nonce) uname cip
          (encryptChannelUrl mc ser cfgP iv now url user ch ip em pid perm nonce) := by
  have hcolon : (':' : Char).toNat < 256 := by decide
  have hbytes : ∀ b ∈ charsToBytes (hexEncode iv ++ ':' ::
      hexEncode (mc.enc iv
        (ser (mkTokenPayload cfgP now url user ch ip em pid perm nonce)))),
      b < 256 := by
    intro b hb
    simp only [charsToBytes, List.mem_map] at hb
    obtain ⟨c, hc, hcb⟩ := hb
    subst hcb
    simp only [List.mem_append, List.mem_cons] at hc
    rcases hc with h | h | h
    · exact hexEncode_toNat_lt iv hivb c h
    · subst h; exact hcolon
    · exact hexEncode_toNat_lt _ hctb c h
  have hclass := mem_b64encode_class _ hbytes
  have hmap := map_unUrlSafe_strip _ hclass
  have hpad := padTo4_strip_b64encode _ hbytes
  have hb64 := b64decode_b64encode _ hbytes
  have hsplit : splitColon (hexEncode iv ++ ':' ::
      hexEncode (mc.enc iv
        (ser (mkTokenPayload cfgP now url user ch ip em pid perm nonce))))
      = [hexEncode iv, hexEncode (mc.enc iv
          (ser (mkTokenPayload cfgP now url user ch ip em pid perm nonce)))] := by
    rw [splitColon_append _ _ (colon_notin_hexEncode iv hivb),
      splitColon_no_colon _ (colon_notin_hexEncode _ hctb)]
  simp only [decryptChannelToken, encryptChannelUrl]
  rw [hmap, hpad, hb64]
  simp only [bytesToChars_charsToBytes, hsplit]
  rw [hexDecode_hexEncode iv hivb, hexDecode_hexEncode _ hctb]
  simp [hiv16, hdec, hdes]

/-- C2: round-trip.  For every cipher and serializer satisfying the
library's round-trip laws at the issued payload, and under the shipped
config (IP binding off), verifying the token produced by
`encryptChannelUrl` with the payload's own username and **any** client
IP, at a time not past the payload's expiry and with the usage counter
below its cap — and, for a permanent payload, its playlist present in
the persistent store — succeeds and returns the payload's own fields:
target URL, channel id, permanence flag and playlist id. -/
theorem token_roundtrip (mc : MsgCipher)
    (ser : TokenPayload → List Nat) (des : List Nat → Option TokenPayload)
    (seccfg : SecurityConfig) (pers : List String)
    (rt : List (List Char × Nat)) (cfgP : PlaylistConfig) (iv : List Nat)
    (now now2 : Nat) (url user ch ip : String) (em : Nat)
    (pid : Option String) (perm : Bool) (nonce : String) (cip : String)
    (hiv16 : iv.length = 16) (hivb : ∀ b ∈ iv, b < 256)
    (hctb : ∀ b ∈ mc.enc iv
      (ser (mkTokenPayload cfgP now url user ch ip em pid perm nonce)), b < 256)
    (hdec : mc.dec iv (mc.enc iv
        (ser (mkTokenPayload cfgP now url user ch ip em pid perm nonce)))
      = some (ser (mkTokenPayload cfgP now url user ch ip em pid perm nonce)))
    (hdes : des (ser (mkTokenPayload cfgP now url user ch ip em pid perm nonce))
      = some (mkTokenPayload cfgP now url user ch ip em pid perm nonce))
    (hbind : seccfg.enableIPBinding = false)
    (hexp : now2 ≤ (mkTokenPayload cfgP now url user ch ip em pid perm nonce).expires)
    (hperm : perm = true → jsTruthyStr pid = true → pid.getD "" ∈ pers)
    (husage : lookupCount rt (user.data ++ '_' ::
        encryptChannelUrl mc ser cfgP iv now url user ch ip em pid perm nonce)
      < (if perm then jsOr seccfg.maxTokenUsage 3 * 10
         else jsOr seccfg.maxTokenUsage 3)) :
    decryptChannelToken mc des seccfg pers rt now2
        (encryptChannelUrl mc ser cfgP iv now url user ch ip em pid perm nonce)
        user cip
      = .ok url ch (user.data ++ '_' ::
          encryptChannelUrl mc ser cfgP iv now url user ch ip em pid perm nonce)
          (if perm then none
           else some (((mkTokenPayload cfgP now url user ch ip em pid perm
             nonce).expires - now2) / 60000))
          perm pid := by
  rw [decrypt_encrypt_reduces mc ser des seccfg pers rt cfgP iv now now2 url
    user ch ip em pid perm nonce user cip hiv16 hivb hctb hdec hdes]
  have hne : ¬ ((mkTokenPayload cfgP now url user ch ip em pid perm
      nonce).expires < now2) := by omega
  have hnu : ¬ ((if perm = true then jsOr seccfg.maxTokenUsage 3 * 10
      else jsOr seccfg.maxTokenUsage 3) ≤ lookupCount rt (user.data ++ '_' ::
        encryptChannelUrl mc ser cfgP iv now url user ch ip em pid perm
          nonce)) := by
    rcases Bool.eq_false_or_eq_true perm with h | h <;> simp_all
  by_cases hpw : perm = true ∧ jsTruthyStr pid = true
  · have hmem := hperm hpw.1 hpw.2
    simp only [validateTokenPayload, mkTokenPayload, hpw.1, hpw.2,
      Bool.and_self, if_pos hmem, hbind]
    simp only [hpw.1] at hnu
    simp [hnu, lookupCount, hpw.1]
    simp only [lookupCount, if_true] at hnu
    omega
  · have hb : (perm && jsTruthyStr pid) = false := by
      rcases Bool.eq_false_or_eq_true perm with h | h <;>
        rcases Bool.eq_false_or_eq_true (jsTruthyStr pid) with h2 | h2 <;>
        simp_all
    simp only [validateTokenPayload, mkTokenPayload] at hne ⊢
    simp only [hb, Bool.false_eq_true, if_false, if_neg hne, hbind]
    simp only [mkTokenPayload] at hnu
    simp [hnu, lookupCount]
    simp only [lookupCount] at hnu
    omega

set_option maxRecDepth 100000

/-- Witness for C2 at concrete values: the executable cipher and JSON
instances, a two-hour non-permanent token for `alice` issued at time
1000, verified at time 2000 from an unrelated IP. -/
theorem token_roundtrip_witness :
    decryptChannelToken xorCipher jsonDes {} [] [] 2000
        (encryptChannelUrl xorCipher jsonSer {} cexIv 1000 "http://u" "alice"
          "ch1" "1.2.3.4" 120 none false "aabb") "alice" "9.9.9.9"
      = .ok "http://u" "ch1" ("alice".data ++ '_' ::
          encryptChannelUrl xorCipher jsonSer {} cexIv 1000 "http://u" "alice"
            "ch1" "1.2.3.4" 120 none false "aabb")
          (if false then none
           else some (((mkTokenPayload {} 1000 "http://u" "alice" "ch1"
             "1.2.3.4" 120 none false "aabb").expires - 2000) / 60000))
          false none :=
  token_roundtrip xorCipher jsonSer jsonDes {} [] [] {} cexIv 1000 2000
    "http://u" "alice" "ch1" "1.2.3.4" 120 none false "aabb" "9.9.9.9"
    (by decide) (by decide) (by decide) (by decide) (by decide) rfl
    (by decide) (by decide) (by decide)

theorem hexEncode_length : ∀ bs : List Nat,
    (hexEncode bs).length = 2 * bs.length := by
  intro bs
  induction bs with
  | nil => rfl
  | cons b t ih => simp [hexEncode, ih]; omega

theorem filter_b64encode_ne_nil : ∀ bs : List Nat, bs ≠ [] →
    (∀ b ∈ bs, b < 256) →
    (b64encode bs).filter (fun c => c ≠ '=') ≠ [] := by
  intro bs
  induction bs using b64encode.induct with
  | case1 => intro h _; exact absurd rfl h
  | case2 b1 =>
    intro _ hb
    have h1 : b1 < 256 := hb b1 (by simp)
    have n1 := b64Char_ne_pad (b1 / 4) (by omega)
    simp [b64encode, List.filter, n1]
  | case3 b1 b2 =>
    intro _ hb
    have h1 : b1 < 256 := hb b1 (by simp)
    have n1 := b64Char_ne_pad (b1 / 4) (by omega)
    simp [b64encode, List.filter, n1]
  | case4 b1 b2 b3 rest _ih =>
    intro _ hb
    have h1 : b1 < 256 := hb b1 (by simp)
    have n1 := b64Char_ne_pad (b1 / 4) (by omega)
    simp [b64encode, List.filter, n1]

theorem bumpLastChar_cons (c : Char) (l : List Char) (h : l ≠ []) :
    bumpLastChar (c :: l) = c :: bumpLastChar l := by
  cases l with
  | nil => exact absurd rfl h
  | cons x xs => simp [bumpLastChar, List.getLastD_cons]

theorem urlSafe_fix_mult4 : ∀ v, v < 64 → v % 4 = 0 →
    urlSafeChar (b64Char v) = b64Char v ∧
    unUrlSafeChar (b64Char (v + 1)) = b64Char (v + 1) ∧
    b64Char (v + 1) ≠ b64Char v ∧ v + 1 < 64 := by decide

theorem diffPositions_append_last : ∀ (a : List Char) (x y : Char),
    diffPositions (a ++ [x]) (a ++ [y]) = if x = y then 0 else 1 := by
  intro a x y
  induction a with
  | nil => simp [diffPositions]
  | cons c t ih => simpa [diffPositions, List.zipWith] using ih

theorem getLastD_default_irrel : ∀ (l : List Char) (d1 d2 : Char), l ≠ [] →
    l.getLastD d1 = l.getLastD d2 := by
  intro l d1 d2 h
  cases l with
  | nil => exact absurd rfl h
  | cons x xs => simp only [List.getLastD_cons]

theorem stripped_last : ∀ bs : List Nat, (∀ b ∈ bs, b < 256) → bs ≠ [] →
    bs.length % 3 ≠ 0 →
    ∃ v, v < 64 ∧ v % 4 = 0 ∧
      ((b64encode bs).filter (fun c => c ≠ '=')).getLastD 'A' = b64Char v := by
  intro bs
  induction bs using b64encode.induct with
  | case1 => intro _ h _; exact absurd rfl h
  | case2 b1 =>
    intro hb _ _
    have h1 : b1 < 256 := hb b1 (by simp)
    have n1 := b64Char_ne_pad (b1 / 4) (by omega)
    have n2 := b64Char_ne_pad (b1 % 4 * 16) (by omega)
    refine ⟨b1 % 4 * 16, by omega, by omega, ?_⟩
    simp [b64encode, List.filter, n1, n2, List.getLastD_cons]
  | case3 b1 b2 =>
    intro hb _ _
    have h1 : b1 < 256 := hb b1 (by simp)
    have h2 : b2 < 256 := hb b2 (by simp)
    have n1 := b64Char_ne_pad (b1 / 4) (by omega)
    have n2 := b64Char_ne_pad (b1 % 4 * 16 + b2 / 16) (by omega)
    have n3 := b64Char_ne_pad (b2 % 16 * 4) (by omega)
    refine ⟨b2 % 16 * 4, by omega, by omega, ?_⟩
    simp [b64encode, List.filter, n1, n2, n3, List.getLastD_cons]
  | case4 b1 b2 b3 rest ih =>
    intro hb hne hmod
    have h1 : b1 < 256 := hb b1 (by simp)
    have h2 : b2 < 256 := hb b2 (by simp)
    have h3 : b3 < 256 := hb b3 (by simp)
    have hrest : ∀ b ∈ rest, b < 256 := fun b hbr => hb b (by simp [hbr])
    have hmod2 : rest.length % 3 ≠ 0 := by
      simp only [List.length_cons] at hmod
      omega
    have hne2 : rest ≠ [] := by
      intro h; subst h; simp at hmod2
    have hsr := filter_b64encode_ne_nil rest hne2 hrest
    obtain ⟨v, hv, hv4, hlast⟩ := ih hrest hne2 hmod2
    have n1 := b64Char_ne_pad (b1 / 4) (by omega)
    have n2 := b64Char_ne_pad (b1 % 4 * 16 + b2 / 16) (by omega)
    have n3 := b64Char_ne_pad (b2 % 16 * 4 + b3 / 64) (by omega)
    have n4 := b64Char_ne_pad (b3 % 64) (by omega)
    refine ⟨v, hv, hv4, ?_⟩
    have e1 : (decide (b64Char (b1 / 4) ≠ '=')) = true := by simp [n1]
    have e2 : (decide (b64Char (b1 % 4 * 16 + b2 / 16) ≠ '=')) = true := by
      simp [n2]
    have e3 : (decide (b64Char (b2 % 16 * 4 + b3 / 64) ≠ '=')) = true := by
      simp [n3]
    have e4 : (decide (b64Char (b3 % 64) ≠ '=')) = true := by simp [n4]
    simp only [b64encode, List.filter_cons, e1, e2, e3, e4, if_true]
    cases hsf : (b64encode rest).filter (fun c => c ≠ '=') with
    | nil => exact absurd hsf hsr
    | cons y ys =>
      rw [hsf] at hlast
      simp only [List.getLastD_cons] at hlast ⊢
      exact hlast

theorem b64decode_pad_bump : ∀ bs : List Nat, (∀ b ∈ bs, b < 256) →
    bs ≠ [] → bs.length % 3 ≠ 0 →
    b64decode (padTo4 (bumpLastChar
      ((b64encode bs).filter (fun c => c ≠ '=')))) = some bs := by
  intro bs
  induction bs using b64encode.induct with
  | case1 => intro _ h _; exact absurd rfl h
  | case2 b1 =>
    intro hb _ _
    have h1 : b1 < 256 := hb b1 (by simp)
    have n1 := b64Char_ne_pad (b1 / 4) (by omega)
    have n2 := b64Char_ne_pad (b1 % 4 * 16) (by omega)
    have hv1 := b64Val_b64Char (b1 / 4) (by omega)
    have hv2 := b64Val_b64Char (b1 % 4 * 16) (by omega)
    have hv2b := b64Val_b64Char (b1 % 4 * 16 + 1) (by omega)
    simp only [b64encode, List.filter, n1, n2]
    simp [n1, n2, bumpLastChar, List.getLastD_cons, hv2, padTo4, b64decode,
      hv1, hv2b]
    omega
  | case3 b1 b2 =>
    intro hb _ _
    have h1 : b1 < 256 := hb b1 (by simp)
    have h2 : b2 < 256 := hb b2 (by simp)
    have n1 := b64Char_ne_pad (b1 / 4) (by omega)
    have n2 := b64Char_ne_pad (b1 % 4 * 16 + b2 / 16) (by omega)
    have n3 := b64Char_ne_pad (b2 % 16 * 4) (by omega)
    have n3b := b64Char_ne_pad (b2 % 16 * 4 + 1) (by omega)
    have hv1 := b64Val_b64Char (b1 / 4) (by omega)
    have hv2 := b64Val_b64Char (b1 % 4 * 16 + b2 / 16) (by omega)
    have hv3 := b64Val_b64Char (b2 % 16 * 4) (by omega)
    have hv3b := b64Val_b64Char (b2 % 16 * 4 + 1) (by omega)
    simp only [b64encode, List.filter, n1, n2, n3]
    simp [n1, n2, n3, bumpLastChar, List.getLastD_cons, hv3, padTo4,
      b64decode, hv1, hv2, hv3b, n3b]
    constructor
    · omega
    · omega
  | case4 b1 b2 b3 rest ih =>
    intro hb hne hmod
    have h1 : b1 < 256 := hb b1 (by simp)
    have h2 : b2 < 256 := hb b2 (by simp)
    have h3 : b3 < 256 := hb b3 (by simp)
    have hrest : ∀ b ∈ rest, b < 256 := fun b hbr => hb b (by simp [hbr])
    have hmod2 : rest.length % 3 ≠ 0 := by
      simp only [List.length_cons] at hmod
      omega
    have hne2 : rest ≠ [] := by
      intro h; subst h; simp at hmod2
    have hsr := filter_b64encode_ne_nil rest hne2 hrest
    have n1 := b64Char_ne_pad (b1 / 4) (by omega)
    have n2 := b64Char_ne_pad (b1 % 4 * 16 + b2 / 16) (by omega)
    have n3 := b64Char_ne_pad (b2 % 16 * 4 + b3 / 64) (by omega)
    have n4 := b64Char_ne_pad (b3 % 64) (by omega)
    have hv1 := b64Val_b64Char (b1 / 4) (by omega)
    have hv2 := b64Val_b64Char (b1 % 4 * 16 + b2 / 16) (by omega)
    have hv3 := b64Val_b64Char (b2 % 16 * 4 + b3 / 64) (by omega)
    have hv4 := b64Val_b64Char (b3 % 64) (by omega)
    have e1 : (decide (b64Char (b1 / 4) ≠ '=')) = true := by simp [n1]
    have e2 : (decide (b64Char (b1 % 4 * 16 + b2 / 16) ≠ '=')) = true := by
      simp [n2]
    have e3 : (decide (b64Char (b2 % 16 * 4 + b3 / 64) ≠ '=')) = true := by
      simp [n3]
    have e4 : (decide (b64Char (b3 % 64) ≠ '=')) = true := by simp [n4]
    simp only [b64encode, List.filter_cons, e1, e2, e3, e4, if_true]
    have hbump : bumpLastChar (b64Char (b1 / 4) ::
        b64Char (b1 % 4 * 16 + b2 / 16) :: b64Char (b2 % 16 * 4 + b3 / 64) ::
        b64Char (b3 % 64) :: (b64encode rest).filter (fun c => c ≠ '='))
        = b64Char (b1 / 4) :: b64Char (b1 % 4 * 16 + b2 / 16) ::
          b64Char (b2 % 16 * 4 + b3 / 64) :: b64Char (b3 % 64) ::
          bumpLastChar ((b64encode rest).filter (fun c => c ≠ '=')) := by
      rw [bumpLastChar_cons _ _ (by simp), bumpLastChar_cons _ _ (by simp),
        bumpLastChar_cons _ _ (by simp), bumpLastChar_cons _ _ hsr]
    rw [hbump, padTo4_cons4]
    have hbne : bumpLastChar ((b64encode rest).filter (fun c => c ≠ '=')) ≠ [] := by
      simp only [bumpLastChar]
      intro h
      simpa using congrArg List.length h
    simp only [b64decode, hv1, hv2, hv3, hv4, if_neg n3, if_neg n4,
      ih hrest hne2 hmod2]
    have g1 : b1 / 4 * 4 + (b1 % 4 * 16 + b2 / 16) / 16 = b1 := by omega
    have g2 : (b1 % 4 * 16 + b2 / 16) % 16 * 16 + (b2 % 16 * 4 + b3 / 64) / 4
        = b2 := by omega
    have g3 : (b2 % 16 * 4 + b3 / 64) % 4 * 64 + b3 % 64 = b3 := by omega
    simp [g1, g2, g3]

theorem urlSafe_eq_pad_iff (c : Char) : urlSafeChar c = '=' ↔ c = '=' := by
  by_cases h1 : c = '+'
  · subst h1; simp [urlSafeChar]
  · by_cases h2 : c = '/'
    · subst h2; simp [urlSafeChar]
    · simp [urlSafeChar, h1, h2]

theorem filter_map_urlsafe : ∀ l : List Char,
    (l.map urlSafeChar).filter (fun c => c ≠ '=')
      = (l.filter (fun c => c ≠ '=')).map urlSafeChar := by
  intro l
  induction l with
  | nil => rfl
  | cons c t ih =>
    by_cases h : c = '='
    · subst h
      simp [urlSafeChar, List.filter]
      simpa using ih
    · have h2 : urlSafeChar c ≠ '=' := fun hh => h ((urlSafe_eq_pad_iff c).mp hh)
      simp [List.filter, h, h2]
      simpa using ih

theorem getLastD_map (f : Char → Char) : ∀ (l : List Char) (d : Char),
    (l.map f).getLastD (f d) = f (l.getLastD d) := by
  intro l
  induction l with
  | nil => intro d; rfl
  | cons x xs ih => intro d; simp only [List.map_cons, List.getLastD_cons, ih]

theorem dropLast_map (f : Char → Char) : ∀ l : List Char,
    (l.map f).dropLast = l.dropLast.map f := by
  intro l
  induction l with
  | nil => rfl
  | cons x xs ih =>
    cases xs with
    | nil => rfl
    | cons y ys =>
      simp only [List.map_cons, List.dropLast_cons₂, ← ih, List.map_cons]

theorem bump_token_transport : ∀ bs : List Nat, (∀ b ∈ bs, b < 256) →
    bs ≠ [] → bs.length % 3 ≠ 0 →
    (bumpLastChar (((b64encode bs).map urlSafeChar).filter
      (fun c => c ≠ '='))).map unUrlSafeChar
      = bumpLastChar ((b64encode bs).filter (fun c => c ≠ '=')) := by
  intro bs hb hne hmod
  obtain ⟨v, hv, hv4, hlast⟩ := stripped_last bs hb hne hmod
  have hfix := urlSafe_fix_mult4 v hv hv4
  have hclass : ∀ c ∈ (b64encode bs).filter (fun c => c ≠ '='),
      ∃ w, w < 64 ∧ c = b64Char w := by
    intro c hc
    have hmem := List.mem_of_mem_filter hc
    have hne2 : c ≠ '=' := by
      have := List.of_mem_filter hc
      simpa using this
    rcases mem_b64encode_class bs hb c hmem with h | h
    · exact absurd h hne2
    · exact h
  rw [filter_map_urlsafe]
  have hsne := filter_b64encode_ne_nil bs hne hb
  have hmne : ((b64encode bs).filter (fun c => c ≠ '=')).map urlSafeChar
      ≠ [] := by
    simpa using hsne
  have hget : (((b64encode bs).filter (fun c => c ≠ '=')).map
      urlSafeChar).getLastD 'A'
      = urlSafeChar (((b64encode bs).filter (fun c => c ≠ '=')).getLastD 'A') := by
    rw [getLastD_default_irrel _ 'A' (urlSafeChar 'A') hmne, getLastD_map]
  simp only [bumpLastChar, hget, hlast, hfix.1, dropLast_map,
    b64Val_b64Char v hv, Option.getD_some]
  rw [List.map_append]
  congr 1
  · have hsub : ∀ c ∈ ((b64encode bs).filter
        (fun c => c ≠ '=')).dropLast, ∃ w, w < 64 ∧ c = b64Char w := by
      intro c hc
      exact hclass c (List.dropLast_subset _ hc)
    rw [List.map_map]
    refine (List.map_congr_left ?_).trans (List.map_id _)
    intro c hc
    obtain ⟨w, hw, hcw⟩ := hsub c hc
    subst hcw
    exact (urlsafe_roundtrip_b64 w hw).2
  · simp [hfix.2.1]

theorem dropLast_append_getLastD : ∀ (l : List Char) (d : Char), l ≠ [] →
    l.dropLast ++ [l.getLastD d] = l := by
  intro l
  induction l with
  | nil => intro d h; exact absurd rfl h
  | cons x xs ih =>
    intro d _
    cases xs with
    | nil => rfl
    | cons y ys =>
      simp only [List.dropLast_cons₂, List.getLastD_cons, List.cons_append]
      have h := ih x (by simp)
      simp only [List.getLastD_cons] at h
      rw [h]

theorem validate_success (seccfg : SecurityConfig) (pers : List String)
    (rt : List (List Char × Nat)) (now2 : Nat) (p : TokenPayload)
    (uname cip : String) (tok : List Char)
    (hbind : seccfg.enableIPBinding = false)
    (huser : p.user = uname)
    (hexp : ¬(p.isPermanent = true ∧ jsTruthyStr p.playlistId = true) →
      now2 ≤ p.expires)
    (hperm : p.isPermanent = true → jsTruthyStr p.playlistId = true →
      p.playlistId.getD "" ∈ pers)
    (husage : lookupCount rt (uname.data ++ '_' :: tok)
      < (if p.isPermanent then jsOr seccfg.maxTokenUsage 3 * 10
         else jsOr seccfg.maxTokenUsage 3)) :
    validateTokenPayload seccfg pers rt now2 p uname cip tok
      = .ok p.url p.channel (uname.data ++ '_' :: tok)
          (if p.isPermanent then none else some ((p.expires - now2) / 60000))
          p.isPermanent p.playlistId := by
  have hnu : ¬ ((if p.isPermanent then jsOr seccfg.maxTokenUsage 3 * 10
      else jsOr seccfg.maxTokenUsage 3)
        ≤ lookupCount rt (uname.data ++ '_' :: tok)) := Nat.not_le.mpr husage
  by_cases hpw : p.isPermanent = true ∧ jsTruthyStr p.playlistId = true
  · have hmem := hperm hpw.1 hpw.2
    simp only [validateTokenPayload, hpw.1, hpw.2, Bool.and_self,
      if_pos hmem, hbind, huser]
    simp only [hpw.1, if_true] at hnu
    simp [hnu, lookupCount, hpw.1]
    simp only [lookupCount] at hnu
    omega
  · have hb : (p.isPermanent && jsTruthyStr p.playlistId) = false := by
      rcases Bool.eq_false_or_eq_true p.isPermanent with h | h <;>
        rcases Bool.eq_false_or_eq_true (jsTruthyStr p.playlistId) with h2 | h2 <;>
        simp_all
    have hne : ¬ (p.expires < now2) := by
      have := hexp hpw
      omega
    simp only [validateTokenPayload, hb, Bool.false_eq_true, if_false,
      if_neg hne, hbind, huser]
    simp [hnu, lookupCount]
    simp only [lookupCount] at hnu
    omega

theorem decrypt_bumped_reduces (mc : MsgCipher)
    (ser : TokenPayload → List Nat) (des : List Nat → Option TokenPayload)
    (seccfg : SecurityConfig) (pers : List String)
    (rt : List (List Char × Nat)) (cfgP : PlaylistConfig) (iv : List Nat)
    (now now2 : Nat) (url user ch ip : String) (em : Nat)
    (pid : Option String) (perm : Bool) (nonce : String) (uname cip : String)
    (hiv16 : iv.length = 16) (hivb : ∀ b ∈ iv, b < 256)
    (hctb : ∀ b ∈ mc.enc iv
      (ser (mkTokenPayload cfgP now url user ch ip em pid perm nonce)), b < 256)
    (hmod : (33 + 2 * (mc.enc iv
      (ser (mkTokenPayload cfgP now url user ch ip em pid perm nonce))).length)
      % 3 ≠ 0)
    (hdec : mc.dec iv (mc.enc iv
        (ser (mkTokenPayload cfgP now url user ch ip em pid perm nonce)))
      = some (ser (mkTokenPayload cfgP now url user ch ip em pid perm nonce)))
    (hdes : des (ser (mkTokenPayload cfgP now url user ch ip em pid perm nonce))
      = some (mkTokenPayload cfgP now url user ch ip em pid perm nonce)) :
    decryptChannelToken mc des seccfg pers rt now2
        (bumpLastChar (encryptChannelUrl mc ser cfgP iv now url user ch ip em
          pid perm nonce)) uname cip
      = validateTokenPayload seccfg pers rt now2
          (mkTokenPayload cfgP now url user ch ip em pid perm nonce) uname cip
          (bumpLastChar (encryptChannelUrl mc ser cfgP iv now url user ch ip
            em pid perm nonce)) := by
  have hcolon : (':' : Char).toNat < 256 := by decide
  have hbytes : ∀ b ∈ charsToBytes (hexEncode iv ++ ':' ::
      hexEncode (mc.enc iv
        (ser (mkTokenPayload cfgP now url user ch ip em pid perm nonce)))),
      b < 256 := by
    intro b hb
    simp only [charsToBytes, List.mem_map] at hb
    obtain ⟨c, hc, hcb⟩ := hb
    subst hcb
    simp only [List.mem_append, List.mem_cons] at hc
    rcases hc with h | h | h
    · exact hexEncode_toNat_lt iv hivb c h
    · subst h; exact hcolon
    · exact hexEncode_toNat_lt _ hctb c h
  have hblen : (charsToBytes (hexEncode iv ++ ':' ::
      hexEncode (mc.enc iv
        (ser (mkTokenPayload cfgP now url user ch ip em pid perm
          nonce))))).length
      = 33 + 2 * (mc.enc iv
        (ser (mkTokenPayload cfgP now url user ch ip em pid perm
          nonce))).length := by
    simp [charsToBytes, hexEncode_length, hiv16]
    omega
  have hbne : charsToBytes (hexEncode iv ++ ':' ::
      hexEncode (mc.enc iv
        (ser (mkTokenPayload cfgP now url user ch ip em pid perm nonce))))
      ≠ [] := by
    intro h
    have := congrArg List.length h
    rw [hblen] at this
    simp at this
  have hbmod : (charsToBytes (hexEncode iv ++ ':' ::
      hexEncode (mc.enc iv
        (ser (mkTokenPayload cfgP now url user ch ip em pid perm
          nonce))))).length % 3 ≠ 0 := by
    rw [hblen]
    exact hmod
  have htrans := bump_token_transport _ hbytes hbne hbmod
  have hbump := b64decode_pad_bump _ hbytes hbne hbmod
  have hsplit : splitColon (hexEncode iv ++ ':' ::
      hexEncode (mc.enc iv
        (ser (mkTokenPayload cfgP now url user ch ip em pid perm nonce))))
      = [hexEncode iv, hexEncode (mc.enc iv
          (ser (mkTokenPayload cfgP now url user ch ip em pid perm nonce)))] := by
    rw [splitColon_append _ _ (colon_notin_hexEncode iv hivb),
      splitColon_no_colon _ (colon_notin_hexEncode _ hctb)]
  simp only [decryptChannelToken, encryptChannelUrl]
  rw [htrans, hbump]
  simp only [bytesToChars_charsToBytes, hsplit]
  rw [hexDecode_hexEncode iv hivb, hexDecode_hexEncode _ hctb]
  simp [hiv16, hdec, hdes]

theorem getLastD_append_singleton : ∀ (a : List Char) (x d : Char),
    (a ++ [x]).getLastD d = x := by
  intro a
  induction a with
  | nil => intro x d; rfl
  | cons c t ih =>
    intro x d
    simp only [List.cons_append, List.getLastD_cons, ih]

/-- C3 (amended): tamper detection does not hold.  Whenever the framed
byte string's length is not a multiple of three (the final base64 group
is partial, which holds for almost all payload sizes), replacing the
final character of an issued token by the alphabet character whose 6-bit
value is one greater is a single-byte modification — same length, exactly
one differing position — that `decryptChannelToken` does **not** reject
as `MALFORMED`/`INVALID_FORMAT`: the lenient base64 decoder discards the
trailing bits, the modified token decodes to the same bytes, and
verification succeeds with the originally issued payload fields. -/
theorem tamper_not_detected (mc : MsgCipher)
    (ser : TokenPayload → List Nat) (des : List Nat → Option TokenPayload)
    (seccfg : SecurityConfig) (pers : List String)
    (rt : List (List Char × Nat)) (cfgP : PlaylistConfig) (iv : List Nat)
    (now now2 : Nat) (url user ch ip : String) (em : Nat)
    (pid : Option String) (perm : Bool) (nonce : String) (cip : String)
    (hiv16 : iv.length = 16) (hivb : ∀ b ∈ iv, b < 256)
    (hctb : ∀ b ∈ mc.enc iv
      (ser (mkTokenPayload cfgP now url user ch ip em pid perm nonce)), b < 256)
    (hmod : (33 + 2 * (mc.enc iv
      (ser (mkTokenPayload cfgP now url user ch ip em pid perm nonce))).length)
      % 3 ≠ 0)
    (hdec : mc.dec iv (mc.enc iv
        (ser (mkTokenPayload cfgP now url user ch ip em pid perm nonce)))
      = some (ser (mkTokenPayload cfgP now url user ch ip em pid perm nonce)))
    (hdes : des (ser (mkTokenPayload cfgP now url user ch ip em pid perm nonce))
      = some (mkTokenPayload cfgP now url user ch ip em pid perm nonce))
    (hbind : seccfg.enableIPBinding = false)
    (hexp : now2 ≤ (mkTokenPayload cfgP now url user ch ip em pid perm nonce).expires)
    (hperm : perm = true → jsTruthyStr pid = true → pid.getD "" ∈ pers)
    (husage : lookupCount rt (user.data ++ '_' :: bumpLastChar
        (encryptChannelUrl mc ser cfgP iv now url user ch ip em pid perm nonce))
      < (if perm then jsOr seccfg.maxTokenUsage 3 * 10
         else jsOr seccfg.maxTokenUsage 3)) :
    bumpLastChar (encryptChannelUrl mc ser cfgP iv now url user ch ip em pid
        perm nonce)
      ≠ encryptChannelUrl mc ser cfgP iv now url user ch ip em pid perm nonce ∧
    (bumpLastChar (encryptChannelUrl mc ser cfgP iv now url user ch ip em pid
        perm nonce)).length
      = (encryptChannelUrl mc ser cfgP iv now url user ch ip em pid perm
          nonce).length ∧
    diffPositions (encryptChannelUrl mc ser cfgP iv now url user ch ip em pid
        perm nonce)
        (bumpLastChar (encryptChannelUrl mc ser cfgP iv now url user ch ip em
          pid perm nonce)) = 1 ∧
    decryptChannelToken mc des seccfg pers rt now2
        (bumpLastChar (encryptChannelUrl mc ser cfgP iv now url user ch ip em
          pid perm nonce)) user cip
      = .ok url ch (user.data ++ '_' :: bumpLastChar
          (encryptChannelUrl mc ser cfgP iv now url user ch ip em pid perm
            nonce))
          (if perm then none
           else some (((mkTokenPayload cfgP now url user ch ip em pid perm
             nonce).expires - now2) / 60000))
          perm pid := by
  have hcolon : (':' : Char).toNat < 256 := by decide
  have hbytes : ∀ b ∈ charsToBytes (hexEncode iv ++ ':' ::
      hexEncode (mc.enc iv
        (ser (mkTokenPayload cfgP now url user ch ip em pid perm nonce)))),
      b < 256 := by
    intro b hb
    simp only [charsToBytes, List.mem_map] at hb
    obtain ⟨c, hc, hcb⟩ := hb
    subst hcb
    simp only [List.mem_append, List.mem_cons] at hc
    rcases hc with h | h | h
    · exact hexEncode_toNat_lt iv hivb c h
    · subst h; exact hcolon
    · exact hexEncode_toNat_lt _ hctb c h
  have hblen : (charsToBytes (hexEncode iv ++ ':' ::
      hexEncode (mc.enc iv
        (ser (mkTokenPayload cfgP now url user ch ip em pid perm
          nonce))))).length
      = 33 + 2 * (mc.enc iv
        (ser (mkTokenPayload cfgP now url user ch ip em pid perm
          nonce))).length := by
    simp [charsToBytes, hexEncode_length, hiv16]
    omega
  have hbne : charsToBytes (hexEncode iv ++ ':' ::
      hexEncode (mc.enc iv
        (ser (mkTokenPayload cfgP now url user ch ip em pid perm nonce))))
      ≠ [] := by
    intro h
    have := congrArg List.length h
    rw [hblen] at this
    simp at this
  have hbmod : (charsToBytes (hexEncode iv ++ ':' ::
      hexEncode (mc.enc iv
        (ser (mkTokenPayload cfgP now url user ch ip em pid perm
          nonce))))).length % 3 ≠ 0 := by
    rw [hblen]
    exact hmod
  obtain ⟨v, hv, hv4, hlast⟩ := stripped_last _ hbytes hbne hbmod
  have hfix := urlSafe_fix_mult4 v hv hv4
  have hsne := filter_b64encode_ne_nil _ hbne hbytes
  have htok : encryptChannelUrl mc ser cfgP iv now url user ch ip em pid perm
      nonce
      = ((b64encode (charsToBytes (hexEncode iv ++ ':' ::
          hexEncode (mc.enc iv (ser (mkTokenPayload cfgP now url user ch ip
            em pid perm nonce)))))).filter (fun c => c ≠ '=')).map
          urlSafeChar := by
    simp only [encryptChannelUrl]
    rw [filter_map_urlsafe]
  have htokne : encryptChannelUrl mc ser cfgP iv now url user ch ip em pid
      perm nonce ≠ [] := by
    rw [htok]
    simpa using hsne
  have hlast_token : (encryptChannelUrl mc ser cfgP iv now url user ch ip em
      pid perm nonce).getLastD 'A' = b64Char v := by
    rw [htok]
    rw [getLastD_default_irrel _ 'A' (urlSafeChar 'A') (by rw [← htok]; exact htokne),
      getLastD_map, hlast, hfix.1]
  have hbumpeq : bumpLastChar (encryptChannelUrl mc ser cfgP iv now url user
      ch ip em pid perm nonce)
      = (encryptChannelUrl mc ser cfgP iv now url user ch ip em pid perm
          nonce).dropLast ++ [b64Char (v + 1)] := by
    simp only [bumpLastChar, hlast_token, b64Val_b64Char v hv, Option.getD_some]
  have hdecomp : encryptChannelUrl mc ser cfgP iv now url user ch ip em pid
      perm nonce
      = (encryptChannelUrl mc ser cfgP iv now url user ch ip em pid perm
          nonce).dropLast ++ [b64Char v] := by
    conv_lhs => rw [← dropLast_append_getLastD _ 'A' htokne]
    rw [hlast_token]
  refine ⟨?_, ?_, ?_, ?_⟩
  · intro h
    rw [hbumpeq] at h
    conv at h => rhs; rw [hdecomp]
    have := congrArg (fun l => l.getLastD 'A') h
    simp only [getLastD_append_singleton] at this
    exact hfix.2.2.1 this
  · rw [hbumpeq]
    conv_rhs => rw [hdecomp]
    simp
  · rw [hbumpeq]
    nth_rewrite 1 [hdecomp]
    rw [diffPositions_append_last]
    simp [hfix.2.2.1, Ne.symm hfix.2.2.1]
  · rw [decrypt_bumped_reduces mc ser des seccfg pers rt cfgP iv now now2 url
      user ch ip em pid perm nonce user cip hiv16 hivb hctb hmod hdec hdes]
    exact validate_success seccfg pers rt now2 _ user cip _ hbind rfl
      (fun _ => hexp) (fun h1 h2 => hperm h1 h2) husage

/-- Counterexample to C3 as stated: for a concrete issued token, the
single-byte modification replacing its final character (same length,
exactly one differing position) is **not** rejected with
`MALFORMED`/`INVALID_FORMAT` — it verifies successfully, returning the
originally issued payload fields. -/
theorem tamper_malformed_cex :
    bumpLastChar (encryptChannelUrl xorCipher jsonSer {} cexIv 1000
        "http://u" "alice" "ch1" "1.2.3.4" 120 none false "aabb")
      ≠ encryptChannelUrl xorCipher jsonSer {} cexIv 1000 "http://u" "alice"
          "ch1" "1.2.3.4" 120 none false "aabb" ∧
    (bumpLastChar (encryptChannelUrl xorCipher jsonSer {} cexIv 1000
        "http://u" "alice" "ch1" "1.2.3.4" 120 none false "aabb")).length
      = (encryptChannelUrl xorCipher jsonSer {} cexIv 1000 "http://u" "alice"
          "ch1" "1.2.3.4" 120 none false "aabb").length ∧
    diffPositions (encryptChannelUrl xorCipher jsonSer {} cexIv 1000
        "http://u" "alice" "ch1" "1.2.3.4" 120 none false "aabb")
        (bumpLastChar (encryptChannelUrl xorCipher jsonSer {} cexIv 1000
          "http://u" "alice" "ch1" "1.2.3.4" 120 none false "aabb")) = 1 ∧
    decryptChannelToken xorCipher jsonDes {} [] [] 2000
        (bumpLastChar (encryptChannelUrl xorCipher jsonSer {} cexIv 1000
          "http://u" "alice" "ch1" "1.2.3.4" 120 none false "aabb"))
        "alice" "9.9.9.9"
      = .ok "http://u" "ch1" ("alice".data ++ '_' :: bumpLastChar
          (encryptChannelUrl xorCipher jsonSer {} cexIv 1000 "http://u"
            "alice" "ch1" "1.2.3.4" 120 none false "aabb"))
          (some 119) false none := by
  refine ⟨by decide, by decide, by decide, by decide⟩

/-- Witness for C3 (amended) at the same concrete inputs, obtained by
instantiating the general theorem and discharging its hypotheses by
evaluation. -/
theorem tamper_not_detected_witness :
    bumpLastChar (encryptChannelUrl xorCipher jsonSer {} cexIv 1000
        "http://u" "alice" "ch1" "1.2.3.4" 120 none false "aabb")
      ≠ encryptChannelUrl xorCipher jsonSer {} cexIv 1000 "http://u" "alice"
          "ch1" "1.2.3.4" 120 none false "aabb" ∧
    (bumpLastChar (encryptChannelUrl xorCipher jsonSer {} cexIv 1000
        "http://u" "alice" "ch1" "1.2.3.4" 120 none false "aabb")).length
      = (encryptChannelUrl xorCipher jsonSer {} cexIv 1000 "http://u" "alice"
          "ch1" "1.2.3.4" 120 none false "aabb").length ∧
    diffPositions (encryptChannelUrl xorCipher jsonSer {} cexIv 1000
        "http://u" "alice" "ch1" "1.2.3.4" 120 none false "aabb")
        (bumpLastChar (encryptChannelUrl xorCipher jsonSer {} cexIv 1000
          "http://u" "alice" "ch1" "1.2.3.4" 120 none false "aabb")) = 1 ∧
    decryptChannelToken xorCipher jsonDes {} [] [] 2000
        (bumpLastChar (encryptChannelUrl xorCipher jsonSer {} cexIv 1000
          "http://u" "alice" "ch1" "1.2.3.4" 120 none false "aabb"))
        "alice" "9.9.9.9"
      = .ok "http://u" "ch1" ("alice".data ++ '_' :: bumpLastChar
          (encryptChannelUrl xorCipher jsonSer {} cexIv 1000 "http://u"
            "alice" "ch1" "1.2.3.4" 120 none false "aabb"))
          (if false then none
           else some (((mkTokenPayload {} 1000 "http://u" "alice" "ch1"
             "1.2.3.4" 120 none false "aabb").expires - 2000) / 60000))
          false none :=
  tamper_not_detected xorCipher jsonSer jsonDes {} [] [] {} cexIv 1000 2000
    "http://u" "alice" "ch1" "1.2.3.4" 120 none false "aabb" "9.9.9.9"
    (by decide) (by decide) (by decide) (by decide) (by decide) (by decide)
    rfl (by decide) (by decide) (by decide)
